import Mathlib

/-!
# Data synchronisation manager (`services/datamanager/datasync/sync.go`)

A shallow embedding of the retry driver `exponentialRetry`, the backoff rule
`getNextWait`, the per-file upload task spawned by `syncer.upload`, and
`syncer.Sync`, followed by theorems about them.

Conventions.
* `time.Duration` is a signed 64-bit count of nanoseconds: an `Int` with
  explicit wrap-around (`wrapInt64`) after every multiplication.
* Everything the code reads from outside (results of the upload operation, of
  `os.Open` / `os.Remove`, the state of the cancellation context, the choice
  made by `select`) is an explicit oracle in an environment record.
* Every function returns the list of observable events it produced, in order.
* The retry loop has no bound in the source; the model takes a fuel argument
  (one unit per loop iteration) and returns `none` when the fuel runs out.
-/

namespace Datasync

/-! ## Errors -/

/-- The gRPC status codes (`google.golang.org/grpc/codes`). -/
inductive Code
  | OK | Canceled | Unknown | InvalidArgument | DeadlineExceeded | NotFound
  | AlreadyExists | PermissionDenied | ResourceExhausted | FailedPrecondition
  | Aborted | OutOfRange | Unimplemented | Internal | Unavailable | DataLoss
  | Unauthenticated
  deriving DecidableEq, Repr

/-- A non-nil Go `error` value, as far as this file distinguishes errors:
a gRPC status error, one of the two context errors, or anything else
(an `os` or `io` error, say), which carries no gRPC status. -/
inductive GoError
  | grpcStatus (c : Code) (msg : String)
  | contextCanceled
  | contextDeadlineExceeded
  | other (msg : String)
  deriving DecidableEq, Repr

/-- The code of `status.Convert(err)`, written `s.Code()` in the source: the
code of a gRPC status error, `Unknown` for every other non-nil error. -/
def statusCode : GoError → Code
  | .grpcStatus c _ => c
  | _ => .Unknown

/-- The test `errors.Is(err, context.Canceled)`. -/
def isCanceled : GoError → Bool
  | .contextCanceled => true
  | _ => false

/-! ## Durations and the backoff rule -/

/-- Reduction of an integer to the signed 64-bit range (Go `int64` overflow). -/
def wrapInt64 (x : Int) : Int := (x + 2 ^ 63) % 2 ^ 64 - 2 ^ 63

/-- One `time.Millisecond`, in nanoseconds. -/
def millisecond : Int := 1000000

/-- The default of the package variable `initialWaitTimeMillis`
(`atomic.NewInt32(1000)`). -/
def defaultInitialWaitTimeMillis : Int := 1000

/-- The package variable `retryExponentialFactor`. -/
def retryExponentialFactor : Int := 2

/-- The package variable `maxRetryInterval` (`time.Hour`), in nanoseconds. -/
def maxRetryInterval : Int := 3600000000000

/-- The expression `time.Millisecond * time.Duration(initialWaitTimeMillis.Load())`,
for the loaded value `initialWaitTimeMillis`. -/
def initialWait (initialWaitTimeMillis : Int) : Int :=
  wrapInt64 (millisecond * initialWaitTimeMillis)

/-- The function `getNextWait`; `initialWaitTimeMillis` is the value loaded
from the package variable of that name. -/
def getNextWait (initialWaitTimeMillis : Int) (lastWait : Int) : Int :=
  if lastWait = 0 then
    initialWait initialWaitTimeMillis
  else
    let nextWait := wrapInt64 (lastWait * retryExponentialFactor)
    if nextWait > maxRetryInterval then maxRetryInterval else nextWait

/-! ## Events -/

/-- What a run does that can be observed from outside, in order. -/
inductive Event
  /-- The `k`-th invocation of the retried operation `fn` (the first is `0`). -/
  | fnCall (k : Nat)
  /-- A call `time.NewTicker(d)`. -/
  | newTicker (d : Int)
  /-- A call `ticker.Stop()`. -/
  | tickerStop
  /-- A call of `Errorw(msg, "error", err)`, or of `Error(err)` with `msg = ""`. -/
  | logError (msg : String) (err : GoError)
  /-- A call `os.Open(path)`. -/
  | osOpen (path : String)
  /-- The deferred `f.Close()`. -/
  | fileClose (path : String)
  /-- A call `os.Remove(path)`. -/
  | osRemove (path : String)
  /-- A call `progressTracker.unmark(path)`. -/
  | unmark (path : String)
  /-- The panic raised in the task, caught by `PanicCapturingGo`. -/
  | panicCaptured
  /-- The deferred `backgroundWorkers.Done()`. -/
  | workersDone
  deriving DecidableEq, Repr

/-! ## The retry driver -/

/-- What `exponentialRetry` reads from outside.
* `fn k` is the result of the `k`-th invocation of the operation (`none` is
  `nil`).
* `ctxErrAtCheck i` is the value of `cancelCtx.Err()` read at the top of loop
  iteration `i`.
* `ctxErrAtSelect i` is the value of `cancelCtx.Err()` when the `select` of
  iteration `i` resolves: it is non-nil exactly when `cancelCtx.Done()` is
  ready there.
* `tickWins i` tells whether that `select` takes the `ticker.C` case when
  `cancelCtx.Done()` is ready: Go picks among the ready cases at random, and
  `false` also stands for a ticker that has not fired yet. -/
structure RetryEnv where
  fn : Nat → Option GoError
  ctxErrAtCheck : Nat → Option GoError
  ctxErrAtSelect : Nat → Option GoError
  tickWins : Nat → Bool

/-- How a call ends: it returns an error value (`none` is `nil`), or panics. -/
inductive Outcome
  | returned (err : Option GoError)
  | panicked
  deriving DecidableEq, Repr

/-- The `for` loop of `exponentialRetry`, entered at iteration `i` with a ticker
of period `nextWait` running. Iteration `i` makes invocation `i + 1` of `fn`.
`time.NewTicker` panics on a non-positive period. -/
def retryLoop (initialWaitTimeMillis : Int) (env : RetryEnv) :
    Nat → Nat → Int → Option (Outcome × List Event)
  | 0, _, _ => none
  | fuel + 1, i, nextWait =>
    match env.ctxErrAtCheck i with
    | some err =>
      some (.returned (some err),
        if isCanceled err then [] else [.logError "context closed unexpectedly" err])
    | none =>
      match env.ctxErrAtSelect i, env.tickWins i with
      | some err, false => some (.returned (some err), [.tickerStop])
      | _, _ =>
        match env.fn (i + 1) with
        | some err =>
          let next := getNextWait initialWaitTimeMillis nextWait
          let pre : List Event :=
            [.fnCall (i + 1), .logError "error while uploading file" err, .tickerStop]
          if next ≤ 0 then some (.panicked, pre)
          else
            match retryLoop initialWaitTimeMillis env fuel (i + 1) next with
            | none => none
            | some (o, t) => some (o, pre ++ .newTicker next :: t)
        | none => some (.returned none, [.fnCall (i + 1), .tickerStop])

/-- The function `exponentialRetry`, with `fuel` loop iterations allowed. -/
def exponentialRetry (initialWaitTimeMillis : Int) (env : RetryEnv) (fuel : Nat) :
    Option (Outcome × List Event) :=
  match env.fn 0 with
  | none => some (.returned none, [.fnCall 0])
  | some err =>
    if statusCode err = .InvalidArgument then
      some (.returned (some err), [.fnCall 0])
    else
      let nextWait := initialWait initialWaitTimeMillis
      if nextWait ≤ 0 then some (.panicked, [.fnCall 0])
      else
        match retryLoop initialWaitTimeMillis env fuel 0 nextWait with
        | none => none
        | some (o, t) => some (o, .fnCall 0 :: .newTicker nextWait :: t)

/-! ## The upload operation -/

/-- What one invocation of `syncer.uploadFile` reads from outside: the answer of
`datacapture.IsDataCaptureFile`, the error of `datacapture.ReadFile`, and the
results of `uploadDataCaptureFile` and `uploadArbitraryFile` (`none` is `nil`).
Those four functions live in other files of the repository. -/
structure UploadFileEnv where
  isDataCaptureFile : Bool
  readFileErr : Option GoError
  uploadDataCaptureFile : Option GoError
  uploadArbitraryFile : Option GoError

/-- The method `syncer.uploadFile`. -/
def uploadFile (e : UploadFileEnv) : Option GoError :=
  if e.isDataCaptureFile then
    match e.readFileErr with
    | some err => some err
    | none => e.uploadDataCaptureFile
  else
    e.uploadArbitraryFile

/-! ## The progress tracker -/

/-- Modelled from the spec: the type `progressTracker` and its methods
`inProgress`, `mark` and `unmark` are declared in another file of the package.
The tracker is the set of marked paths, kept as a list. -/
abbrev ProgressTracker := List String

/-- Modelled from the spec: `progressTracker.inProgress`, whether the path is
marked. -/
def inProgress (pt : ProgressTracker) (path : String) : Bool := decide (path ∈ pt)

/-- Modelled from the spec: `progressTracker.mark`, which records the path. -/
def mark (pt : ProgressTracker) (path : String) : ProgressTracker :=
  if path ∈ pt then pt else path :: pt

/-- Modelled from the spec: `progressTracker.unmark`, which removes the record
of the path. -/
def unmark (pt : ProgressTracker) (path : String) : ProgressTracker :=
  pt.filter (fun q => q ≠ path)

/-! ## The upload task and `Sync` -/

/-- The state an upload task acts on: the progress tracker of the manager and
the set of local files that exist. -/
structure World where
  progressTracker : ProgressTracker
  files : List String
  deriving DecidableEq, Repr

/-- What an upload task reads from outside: the errors of `os.Open`, of the
deferred `f.Close()` and of `os.Remove` (`none` is `nil`), what each invocation
of `uploadFile` meets, and the cancellation oracles of `RetryEnv`. -/
structure TaskEnv where
  openErr : Option GoError
  closeErr : Option GoError
  removeErr : Option GoError
  attempt : Nat → UploadFileEnv
  ctxErrAtCheck : Nat → Option GoError
  ctxErrAtSelect : Nat → Option GoError
  tickWins : Nat → Bool

/-- The environment of the call of `exponentialRetry` in the task: the retried
operation is `func(ctx) error { return s.uploadFile(ctx, s.client, f, s.partID) }`. -/
def TaskEnv.retryEnv (env : TaskEnv) : RetryEnv where
  fn := fun k => uploadFile (env.attempt k)
  ctxErrAtCheck := env.ctxErrAtCheck
  ctxErrAtSelect := env.ctxErrAtSelect
  tickWins := env.tickWins

/-- The events of the deferred `f.Close()` (with its log line when it fails)
followed by the deferred `backgroundWorkers.Done()`. -/
def closeEvents (env : TaskEnv) (path : String) : List Event :=
  match env.closeErr with
  | some err => [.fileClose path, .logError "error closing file" err, .workersDone]
  | none => [.fileClose path, .workersDone]

/-- The end of the task body, from the comment "Delete the file and indicate
that the upload is done": `os.Remove(path)`, then the log line when it failed
and `unmark(path)` when it did not. -/
def removeAndUnmark (env : TaskEnv) (path : String) (w : World) : World × List Event :=
  match env.removeErr with
  | some err => (w, [.osRemove path, .logError "error while deleting file" err])
  | none =>
    (⟨unmark w.progressTracker path, w.files.filter (fun q => q ≠ path)⟩,
      [.osRemove path, .unmark path])

/-- The body of the goroutine started by `syncer.upload` for `path`: the final
state and the events, or `none` when the retry loop runs out of fuel. A panic
runs the deferred calls and is caught by `PanicCapturingGo`. -/
def uploadTask (initialWaitTimeMillis : Int) (env : TaskEnv) (path : String)
    (w : World) (fuel : Nat) : Option (World × List Event) :=
  match env.openErr with
  | some err => some (w, [.osOpen path, .logError "error opening file" err, .workersDone])
  | none =>
    match exponentialRetry initialWaitTimeMillis env.retryEnv fuel with
    | none => none
    | some (.panicked, t) =>
      some (w, .osOpen path :: t ++ closeEvents env path ++ [.panicCaptured])
    | some (.returned (some uploadErr), t) =>
      if !isCanceled uploadErr then
        some (w, .osOpen path :: t ++ .logError "" uploadErr :: closeEvents env path)
      else
        let r := removeAndUnmark env path w
        some (r.1, .osOpen path :: t ++ r.2 ++ closeEvents env path)
    | some (.returned none, t) =>
      let r := removeAndUnmark env path w
      some (r.1, .osOpen path :: t ++ r.2 ++ closeEvents env path)

/-- The part of `syncer.upload` that runs in the caller: the tracker afterwards
and the paths for which a task was started (none or `path`). -/
def upload (pt : ProgressTracker) (path : String) : ProgressTracker × List String :=
  if inProgress pt path then (pt, []) else (mark pt path, [path])

/-- The method `syncer.Sync`, with no task ending while it runs: the tracker
afterwards and the paths of the tasks started, in order. -/
def Sync (pt : ProgressTracker) : List String → ProgressTracker × List String
  | [] => (pt, [])
  | p :: paths =>
    let r := upload pt p
    let rest := Sync r.1 paths
    (rest.1, r.2 ++ rest.2)

/-! ## Reading a trace -/

/-- The number of invocations of the retried operation in a trace. -/
def callCount (t : List Event) : Nat :=
  (t.filter (fun e => match e with | .fnCall _ => true | _ => false)).length

/-- The periods of the tickers created in a trace, in order: the waits. -/
def waits : List Event → List Int
  | [] => []
  | .newTicker d :: t => d :: waits t
  | _ :: t => waits t

/-- The events of a trace other than its log lines, in order. -/
def withoutLogs (t : List Event) : List Event :=
  t.filter (fun e => match e with | .logError _ _ => false | _ => true)

/-- Whether an event is one that `exponentialRetry` itself produces. -/
def isRetryEvent : Event → Bool
  | .fnCall _ => true
  | .newTicker _ => true
  | .tickerStop => true
  | .logError _ _ => true
  | _ => false

/-! ## Concrete environments -/

/-- A path used in the examples. -/
def examplePath : String := "/data/a.dat"

/-- The state in which `examplePath` is marked and its file exists. -/
def exampleWorld : World := ⟨[examplePath], [examplePath]⟩

/-- An invocation of `uploadFile` on an arbitrary file whose upload ends with `r`. -/
def arbitraryAttempt (r : Option GoError) : UploadFileEnv := ⟨false, none, none, r⟩

/-- A retryable failure: the service is unavailable. -/
def unavailable : GoError := .grpcStatus .Unavailable "unavailable"

/-- A permanent failure: the service rejects the request. -/
def invalidArgument : GoError := .grpcStatus .InvalidArgument "invalid argument"

/-- The first invocation fails with `Unavailable` and the context is cancelled
when the loop first checks it; `os.Remove` succeeds. -/
def cancelledEnv : TaskEnv where
  openErr := none
  closeErr := none
  removeErr := none
  attempt := fun _ => arbitraryAttempt (some unavailable)
  ctxErrAtCheck := fun _ => some .contextCanceled
  ctxErrAtSelect := fun _ => some .contextCanceled
  tickWins := fun _ => false

/-- The upload succeeds at once and `os.Remove` fails. -/
def removeFailsEnv : TaskEnv where
  openErr := none
  closeErr := none
  removeErr := some (.other "remove /data/a.dat: permission denied")
  attempt := fun _ => arbitraryAttempt none
  ctxErrAtCheck := fun _ => none
  ctxErrAtSelect := fun _ => none
  tickWins := fun _ => true

/-- Invocation `0` fails with `Unavailable`, invocation `1` with
`InvalidArgument`, every later one succeeds; no cancellation. -/
def permanentOnRetryEnv : RetryEnv where
  fn := fun k => if k = 0 then some unavailable else if k = 1 then some invalidArgument else none
  ctxErrAtCheck := fun _ => none
  ctxErrAtSelect := fun _ => none
  tickWins := fun _ => true

/-- The first invocation fails with `InvalidArgument`. -/
def permanentEnv : TaskEnv where
  openErr := none
  closeErr := none
  removeErr := none
  attempt := fun _ => arbitraryAttempt (some invalidArgument)
  ctxErrAtCheck := fun _ => none
  ctxErrAtSelect := fun _ => none
  tickWins := fun _ => true

/-- The first two invocations fail with `Unavailable`, the third succeeds; no
cancellation, and `os.Remove` succeeds. -/
def twoFailuresEnv : TaskEnv where
  openErr := none
  closeErr := none
  removeErr := none
  attempt := fun k => arbitraryAttempt (if k < 2 then some unavailable else none)
  ctxErrAtCheck := fun _ => none
  ctxErrAtSelect := fun _ => none
  tickWins := fun _ => true

/-- The first `n` invocations fail with `Unavailable`, the next succeeds; no
cancellation. -/
def failingEnv (n : Nat) : RetryEnv where
  fn := fun k => if k < n then some unavailable else none
  ctxErrAtCheck := fun _ => none
  ctxErrAtSelect := fun _ => none
  tickWins := fun _ => true

/-- A structured capture file whose first read fails with an error that
carries no gRPC status; the second invocation succeeds. No cancellation, and
`os.Remove` succeeds. -/
def readFailsEnv : TaskEnv where
  openErr := none
  closeErr := none
  removeErr := none
  attempt := fun k =>
    if k = 0 then ⟨true, some (.other "unexpected EOF"), none, none⟩
    else ⟨true, none, none, none⟩
  ctxErrAtCheck := fun _ => none
  ctxErrAtSelect := fun _ => none
  tickWins := fun _ => true

/-- A sequence of calls of `Sync` on the same manager, with no task ending in
between: the tracker afterwards and the paths of all tasks started. -/
def syncAll (pt : ProgressTracker) : List (List String) → ProgressTracker × List String
  | [] => (pt, [])
  | paths :: calls =>
    let r := Sync pt paths
    let rest := syncAll r.1 calls
    (rest.1, r.2 ++ rest.2)

/-- A goroutine inside `Sync(paths)`, between two calls on the tracker: the
paths still to handle, and whether the first of them has passed the
`inProgress` check of `upload` and is about to be marked. -/
structure SyncCall where
  paths : List String
  checked : Bool
  deriving DecidableEq, Repr

/-- The state shared by concurrent callers of `Sync`: the tracker, and the paths
of the tasks started so far. -/
structure Manager where
  progressTracker : ProgressTracker
  spawned : List String
  deriving DecidableEq, Repr

/-- One step of a goroutine inside `Sync`. `syncer.upload` calls
`s.progressTracker.inProgress(path)` and then `s.progressTracker.mark(path)`
as two calls and holds no lock of its own across them, so each of the two calls
is a step, and steps of other goroutines may come in between. The step after
the check marks the path and starts the task. -/
def syncStep (m : Manager) (c : SyncCall) : Manager × SyncCall :=
  match c.paths, c.checked with
  | [], _ => (m, c)
  | p :: rest, false =>
    if inProgress m.progressTracker p then (m, ⟨rest, false⟩) else (m, ⟨p :: rest, true⟩)
  | p :: rest, true => (⟨mark m.progressTracker p, m.spawned ++ [p]⟩, ⟨rest, false⟩)

/-- Whether a goroutine has returned from `Sync`. -/
def SyncCall.finished (c : SyncCall) : Bool := c.paths.isEmpty

/-- A run of several goroutines: the schedule names, step by step, the
goroutine that moves. -/
def runSchedule (m : Manager) (calls : List SyncCall) : List Nat → Manager × List SyncCall
  | [] => (m, calls)
  | i :: schedule =>
    match calls[i]? with
    | none => runSchedule m calls schedule
    | some c =>
      let r := syncStep m c
      runSchedule r.1 (calls.set i r.2) schedule

/-- A goroutine running alone for `n` steps. -/
def stepAlone : Nat → Manager × SyncCall → Manager × SyncCall
  | 0, s => s
  | n + 1, s => stepAlone n (syncStep s.1 s.2)

/-- The file cannot be opened. -/
def openFailsEnv : TaskEnv where
  openErr := some (.other "open /data/a.dat: no such file or directory")
  closeErr := none
  removeErr := none
  attempt := fun _ => arbitraryAttempt none
  ctxErrAtCheck := fun _ => none
  ctxErrAtSelect := fun _ => none
  tickWins := fun _ => true

/-- The first invocation fails with `Unavailable`; the context is not yet
cancelled when the loop checks it, it is cancelled during the wait, the ticker
fires as well and `select` takes the ticker case; the second invocation
succeeds. -/
def bothReadyEnv : RetryEnv where
  fn := fun k => if k = 0 then some unavailable else none
  ctxErrAtCheck := fun _ => none
  ctxErrAtSelect := fun _ => some .contextCanceled
  tickWins := fun _ => true

/-- Every invocation fails with `Unavailable`; the context is not yet cancelled
when the loop checks it and is cancelled during the first wait, before the
ticker fires. -/
def cancelDuringWaitEnv : RetryEnv where
  fn := fun _ => some unavailable
  ctxErrAtCheck := fun _ => none
  ctxErrAtSelect := fun _ => some .contextCanceled
  tickWins := fun _ => false

/-- Invocations `0` and `1` fail with `Unavailable`; the context is found
cancelled at the top of loop iteration `1`. -/
def cancelAfterRetryEnv : RetryEnv where
  fn := fun _ => some unavailable
  ctxErrAtCheck := fun i => if i = 0 then none else some .contextCanceled
  ctxErrAtSelect := fun i => if i = 0 then none else some .contextCanceled
  tickWins := fun _ => false

end Datasync

/-! # Frame errors (`referenceframe/errors.go`) -/

namespace Referenceframe

/-- What the verb `%d` prints for an integer: a minus sign when it is negative,
then its decimal digits. -/
def decimal (n : Int) : String :=
  if n < 0 then "-" ++ Nat.repr n.natAbs else Nat.repr n.natAbs

/-- The message built by `errors.Errorf(format, args...)` for a format made of
plain text and `%d` verbs: each verb takes the next argument in order; a verb
left without an argument prints as `%!d(MISSING)`. -/
def errorf : List Char → List Int → List Char
  | [], _ => []
  | '%' :: 'd' :: rest, a :: args => (decimal a).data ++ errorf rest args
  | '%' :: 'd' :: rest, [] => "%!d(MISSING)".data ++ errorf rest []
  | c :: rest, args => c :: errorf rest args

/-- The function `NewIncorrectInputLengthError`: the message of the error it
returns. -/
def NewIncorrectInputLengthError (actual expected : Int) : String :=
  String.mk (errorf
    "number of inputs does not match frame DoF, expected %d but got %d".data
    [expected, actual])

end Referenceframe

/-! # Point geometry (`spatialmath/point.go`) -/

namespace Spatialmath

/-- A `float64` as far as negation and comparison with zero see it:
not-a-number, an infinity, or a finite number `m * 2 ^ e` (both zeros have
`m = 0`). -/
inductive Float64
  | nan
  | negInf
  | finite (m : Int) (e : Int)
  | posInf
  deriving DecidableEq, Repr

/-- The Go comparison `x <= 0`; false on not-a-number. -/
def Float64.leZero : Float64 → Bool
  | .nan => false
  | .negInf => true
  | .finite m _ => decide (m ≤ 0)
  | .posInf => false

/-- The Go comparison `x > 0`; false on not-a-number. -/
def Float64.gtZero : Float64 → Bool
  | .nan => false
  | .negInf => false
  | .finite m _ => decide (0 < m)
  | .posInf => true

/-- The Go comparison `x >= 0`; false on not-a-number. -/
def Float64.geZero : Float64 → Bool
  | .nan => false
  | .negInf => false
  | .finite m _ => decide (0 ≤ m)
  | .posInf => true

/-- The Go negation `-x`. -/
def Float64.neg : Float64 → Float64
  | .nan => .nan
  | .negInf => .posInf
  | .finite m e => .finite (-m) e
  | .posInf => .negInf

/-- The functions `point.go` calls that are defined in other files, over the
types `Vector` (`r3.Vector`), `Pose`, `Box` (`box`) and `Sphere` (`sphere`):
`Pose.Point`, `r3.Vector.Sub`, `r3.Vector.Norm`, `box.closestPoint`,
`box.penetrationDepth`, `sphereVsPointDistance` and `PoseAlmostEqual`. -/
structure Ops (Vector Pose Box Sphere : Type) where
  posePoint : Pose → Vector
  sub : Vector → Vector → Vector
  norm : Vector → Float64
  closestPoint : Box → Vector → Vector
  penetrationDepth : Box → Vector → Float64
  sphereVsPointDistance : Sphere → Vector → Float64
  poseAlmostEqual : Pose → Pose → Bool

/-- A value of the interface `Geometry`: a `*box`, a `*sphere`, a `*point`
(given by its pose), or a value of any other type. -/
inductive Geometry (Pose Box Sphere : Type)
  | box (b : Box)
  | sphere (s : Sphere)
  | point (pose : Pose)
  | other

/-- The error made by `newCollisionTypeUnsupportedError`. -/
inductive GeometryError
  | collisionTypeUnsupported
  deriving DecidableEq, Repr

variable {Vector Pose Box Sphere : Type}

/-- The function `pointVsBoxCollision`. -/
def pointVsBoxCollision (ops : Ops Vector Pose Box Sphere) (b : Box) (pt : Vector) : Bool :=
  (ops.norm (ops.sub (ops.closestPoint b pt) pt)).leZero

/-- The function `pointVsBoxDistance`. -/
def pointVsBoxDistance (ops : Ops Vector Pose Box Sphere) (b : Box) (pt : Vector) : Float64 :=
  let distance := ops.norm (ops.sub (ops.closestPoint b pt) pt)
  if distance.gtZero then distance else (ops.penetrationDepth b pt).neg

/-- The method `point.AlmostEqual`, for the point of pose `pose`. -/
def AlmostEqual (ops : Ops Vector Pose Box Sphere) (pose : Pose)
    (g : Geometry Pose Box Sphere) : Bool :=
  match g with
  | .point other => ops.poseAlmostEqual pose other
  | _ => false

/-- The method `point.CollidesWith`, for the point of pose `pose`. -/
def CollidesWith (ops : Ops Vector Pose Box Sphere) (pose : Pose)
    (g : Geometry Pose Box Sphere) : Bool × Option GeometryError :=
  match g with
  | .box other => (pointVsBoxCollision ops other (ops.posePoint pose), none)
  | .sphere other => ((ops.sphereVsPointDistance other (ops.posePoint pose)).leZero, none)
  | .point other => (AlmostEqual ops pose (.point other), none)
  | .other => (true, some .collisionTypeUnsupported)

/-- The method `point.DistanceFrom`, for the point of pose `pose`. -/
def DistanceFrom (ops : Ops Vector Pose Box Sphere) (pose : Pose)
    (g : Geometry Pose Box Sphere) : Float64 × Option GeometryError :=
  match g with
  | .box other => (pointVsBoxDistance ops other (ops.posePoint pose), none)
  | .sphere other => (ops.sphereVsPointDistance other (ops.posePoint pose), none)
  | .point other => (ops.norm (ops.sub (ops.posePoint pose) (ops.posePoint other)), none)
  | .other => (.negInf, some .collisionTypeUnsupported)

/-- The method `point.EncompassedBy`, for the point of pose `pose`. -/
def EncompassedBy (ops : Ops Vector Pose Box Sphere) (pose : Pose)
    (g : Geometry Pose Box Sphere) : Bool × Option GeometryError :=
  CollidesWith ops pose g

/-- Operations over one-point types in which the distance from the point to
its closest point of the box is `d` and the penetration depth is `depth`; the
distance to the sphere is `d` as well. -/
def constOps (d depth : Float64) : Ops Unit Unit Unit Unit where
  posePoint := fun _ => ()
  sub := fun _ _ => ()
  norm := fun _ => d
  closestPoint := fun _ _ => ()
  penetrationDepth := fun _ _ => depth
  sphereVsPointDistance := fun _ _ => d
  poseAlmostEqual := fun _ _ => true

end Spatialmath

namespace Datasync

/-! ## Lemmas on the backoff rule -/

theorem wrapInt64_of_range (x : Int) (h1 : -2 ^ 63 ≤ x) (h2 : x < 2 ^ 63) :
    wrapInt64 x = x := by
  unfold wrapInt64
  rw [Int.emod_eq_of_lt (by omega) (by omega)]
  omega

/-- On a positive wait below `2 ^ 62` the doubling does not overflow and
`getNextWait` is the capped doubling. -/
theorem getNextWait_eq_min (iw w : Int) (h1 : 0 < w) (h2 : w < 2 ^ 62) :
    getNextWait iw w = min (w * 2) maxRetryInterval := by
  unfold getNextWait
  rw [if_neg (by omega)]
  simp only [retryExponentialFactor]
  rw [wrapInt64_of_range (w * 2) (by omega) (by omega)]
  simp only [maxRetryInterval, min_def]
  split_ifs <;> omega

theorem getNextWait_pos (iw w : Int) (h1 : 0 < w) (h2 : w < 2 ^ 62) :
    0 < getNextWait iw w ∧ getNextWait iw w ≤ maxRetryInterval := by
  rw [getNextWait_eq_min iw w h1 h2]
  simp only [maxRetryInterval, min_def]
  split_ifs <;> omega

theorem initialWait_eq (iw : Int) (h1 : -2 ^ 31 ≤ iw) (h2 : iw < 2 ^ 31) :
    initialWait iw = 1000000 * iw := by
  unfold initialWait millisecond
  exact wrapInt64_of_range _ (by omega) (by omega)

/-! ## Lemmas on the retry loop -/

/-- Every event of the retry loop is a retry event. -/
theorem retryLoop_events (iw : Int) (env : RetryEnv) :
    ∀ (fuel i : Nat) (w : Int) (o : Outcome) (t : List Event),
      retryLoop iw env fuel i w = some (o, t) → ∀ e ∈ t, isRetryEvent e = true := by
  intro fuel
  induction fuel with
  | zero => intro i w o t h; simp [retryLoop] at h
  | succ f ih =>
    intro i w o t h e he
    unfold retryLoop at h
    split at h
    · simp only [Option.some.injEq, Prod.mk.injEq] at h
      obtain ⟨-, rfl⟩ := h
      split_ifs at he
      · simp at he
      · simp only [List.mem_singleton] at he
        subst he; rfl
    · split at h
      · simp only [Option.some.injEq, Prod.mk.injEq] at h
        obtain ⟨-, rfl⟩ := h
        simp only [List.mem_singleton] at he
        subst he; rfl
      · split at h
        · simp only at h
          split_ifs at h
          · simp only [Option.some.injEq, Prod.mk.injEq] at h
            obtain ⟨-, rfl⟩ := h
            simp only [List.mem_cons, List.mem_singleton, List.not_mem_nil, or_false] at he
            rcases he with rfl | rfl | rfl <;> rfl
          · split at h
            · simp at h
            · rename_i o1 t1 hrec
              simp only [Option.some.injEq, Prod.mk.injEq] at h
              obtain ⟨-, rfl⟩ := h
              simp only [List.cons_append, List.nil_append, List.mem_cons] at he
              rcases he with rfl | rfl | rfl | rfl | he
              · rfl
              · rfl
              · rfl
              · rfl
              · exact ih _ _ _ _ hrec e he
        · simp only [Option.some.injEq, Prod.mk.injEq] at h
          obtain ⟨-, rfl⟩ := h
          simp only [List.mem_cons, List.mem_singleton, List.not_mem_nil, or_false] at he
          rcases he with rfl | rfl <;> rfl

/-- The retry loop when cancellation is never observed, the next `m`
invocations fail and the one after them succeeds: with more than `m` units of
fuel it returns `nil` after exactly `m + 1` invocations, and the tickers it
creates are the iterates of `getNextWait`. -/
theorem retryLoop_success (iw : Int) (env : RetryEnv)
    (hc : ∀ j, env.ctxErrAtCheck j = none) (hs : ∀ j, env.ctxErrAtSelect j = none) :
    ∀ (m i : Nat) (w : Int) (fuel : Nat), 0 < w → w < 2 ^ 62 →
      (∀ j, j < m → env.fn (i + 1 + j) ≠ none) → env.fn (i + 1 + m) = none → m < fuel →
      ∃ t, retryLoop iw env fuel i w = some (.returned none, t) ∧
        callCount t = m + 1 ∧
        waits t = (List.range m).map (fun j => (getNextWait iw)^[j + 1] w) ∧
        Event.fnCall (i + 1 + m) ∈ t := by
  intro m
  induction m with
  | zero =>
    intro i w fuel _ _ _ hok hfuel
    obtain ⟨f, rfl⟩ : ∃ f, fuel = f + 1 := ⟨fuel - 1, by omega⟩
    refine ⟨[.fnCall (i + 1), .tickerStop], ?_, rfl, rfl, by simp⟩
    simp only [Nat.add_zero] at hok
    simp [retryLoop, hc i, hs i, hok]
  | succ m ih =>
    intro i w fuel hw1 hw2 hfail hok hfuel
    obtain ⟨f, rfl⟩ : ∃ f, fuel = f + 1 := ⟨fuel - 1, by omega⟩
    obtain ⟨err, herr⟩ : ∃ err, env.fn (i + 1) = some err := by
      have := hfail 0 (by omega)
      simp only [Nat.add_zero] at this
      exact Option.ne_none_iff_exists'.mp this
    have hnext := getNextWait_pos iw w hw1 hw2
    have hlt : getNextWait iw w < 2 ^ 62 := by
      have := hnext.2
      simp only [maxRetryInterval] at this
      omega
    obtain ⟨t, ht, hcount, hwaits, hmem⟩ :=
      ih (i + 1) (getNextWait iw w) f hnext.1 hlt
        (fun j hj => by
          have := hfail (j + 1) (by omega)
          rwa [show i + 1 + (j + 1) = i + 1 + 1 + j by omega] at this)
        (by rwa [show i + 1 + (m + 1) = i + 1 + 1 + m by omega] at hok)
        (by omega)
    refine ⟨[.fnCall (i + 1), .logError "error while uploading file" err, .tickerStop] ++
      .newTicker (getNextWait iw w) :: t, ?_, ?_, ?_, ?_⟩
    · simp [retryLoop, hc i, hs i, herr, not_le.mpr hnext.1, ht]
    · simp only [callCount] at hcount ⊢
      simp [hcount]
    · simp only [List.cons_append, List.nil_append, waits, hwaits]
      rw [List.range_succ_eq_map, List.map_cons, List.map_map]
      rfl
    · rw [show i + 1 + (m + 1) = i + 1 + 1 + m by omega]
      simp [hmem]

/-- Every event of `exponentialRetry` is a retry event. -/
theorem exponentialRetry_events (iw : Int) (env : RetryEnv) (fuel : Nat) (o : Outcome)
    (t : List Event) (h : exponentialRetry iw env fuel = some (o, t)) :
    ∀ e ∈ t, isRetryEvent e = true := by
  intro e he
  unfold exponentialRetry at h
  split at h
  · simp only [Option.some.injEq, Prod.mk.injEq] at h
    obtain ⟨-, rfl⟩ := h
    simp only [List.mem_singleton] at he
    subst he; rfl
  · split at h
    · simp only [Option.some.injEq, Prod.mk.injEq] at h
      obtain ⟨-, rfl⟩ := h
      simp only [List.mem_singleton] at he
      subst he; rfl
    · dsimp only at h
      split at h
      · simp only [Option.some.injEq, Prod.mk.injEq] at h
        obtain ⟨-, rfl⟩ := h
        simp only [List.mem_singleton] at he
        subst he; rfl
      · split at h
        · simp at h
        · rename_i o1 t1 hrec
          simp only [Option.some.injEq, Prod.mk.injEq] at h
          obtain ⟨-, rfl⟩ := h
          simp only [List.mem_cons] at he
          rcases he with rfl | rfl | he
          · rfl
          · rfl
          · exact retryLoop_events iw env fuel 0 _ _ _ hrec e he

/-- The driver when cancellation is never observed, the first `n` invocations
fail (the first of them with a code other than `InvalidArgument`) and
invocation `n` succeeds, for a positive 32-bit initial wait: with at least `n`
units of fuel it returns `nil` after exactly `n + 1` invocations and `n` waits,
the iterates of `getNextWait` from the initial wait. -/
theorem exponentialRetry_success (iw : Int) (env : RetryEnv) (n fuel : Nat)
    (hiw1 : 0 < iw) (hiw2 : iw < 2 ^ 31)
    (hc : ∀ j, env.ctxErrAtCheck j = none) (hs : ∀ j, env.ctxErrAtSelect j = none)
    (hfirst : ∀ err, env.fn 0 = some err → statusCode err ≠ .InvalidArgument)
    (hfail : ∀ k, k < n → env.fn k ≠ none) (hok : env.fn n = none) (hfuel : n ≤ fuel) :
    ∃ t, exponentialRetry iw env fuel = some (.returned none, t) ∧
      callCount t = n + 1 ∧
      waits t = (List.range n).map (fun j => (getNextWait iw)^[j] (initialWait iw)) ∧
      Event.fnCall n ∈ t := by
  cases n with
  | zero =>
    refine ⟨[.fnCall 0], ?_, rfl, rfl, by simp⟩
    simp [exponentialRetry, hok]
  | succ m =>
    obtain ⟨err, herr⟩ : ∃ err, env.fn 0 = some err :=
      Option.ne_none_iff_exists'.mp (hfail 0 (by omega))
    have hw : initialWait iw = 1000000 * iw := initialWait_eq iw (by omega) hiw2
    have hpos : 0 < initialWait iw := by omega
    have hlt : initialWait iw < 2 ^ 62 := by omega
    obtain ⟨t, ht, hcount, hwaits, hmem⟩ :=
      retryLoop_success iw env hc hs m 0 (initialWait iw) fuel hpos hlt
        (fun j hj => by
          have := hfail (j + 1) (by omega)
          rwa [show j + 1 = 0 + 1 + j by omega] at this)
        (by rwa [show m + 1 = 0 + 1 + m by omega] at hok) (by omega)
    refine ⟨.fnCall 0 :: .newTicker (initialWait iw) :: t, ?_, ?_, ?_, ?_⟩
    · simp [exponentialRetry, herr, hfirst err herr, not_le.mpr hpos, ht]
    · simp only [callCount] at hcount ⊢
      simp [hcount]
    · simp only [waits, hwaits]
      rw [List.range_succ_eq_map, List.map_cons, List.map_map]
      rfl
    · rw [show m + 1 = 0 + 1 + m by omega]
      simp [hmem]

/-! ## Lemmas on the tracker and the task -/

theorem inProgress_unmark (pt : ProgressTracker) (path : String) :
    inProgress (unmark pt path) path = false := by
  simp [inProgress, unmark]

theorem closeEvents_count (env : TaskEnv) (path : String) (e : Event)
    (h : isRetryEvent e = false) (h1 : e ≠ .fileClose path) (h2 : e ≠ .workersDone) :
    (closeEvents env path).count e = 0 := by
  unfold closeEvents
  rw [List.count_eq_zero]
  intro hmem
  split at hmem
  · simp only [List.mem_cons, List.mem_singleton, List.not_mem_nil, or_false] at hmem
    rcases hmem with rfl | rfl | rfl
    · exact h1 rfl
    · simp [isRetryEvent] at h
    · exact h2 rfl
  · simp only [List.mem_cons, List.mem_singleton, List.not_mem_nil, or_false] at hmem
    rcases hmem with rfl | rfl
    · exact h1 rfl
    · exact h2 rfl

theorem count_eq_zero_of_retry_events (t : List Event) (e : Event)
    (ht : ∀ x ∈ t, isRetryEvent x = true) (h : isRetryEvent e = false) : t.count e = 0 := by
  rw [List.count_eq_zero]
  intro hmem
  rw [ht e hmem] at h
  exact Bool.noConfusion h

/-! ## The upload task: deletion and the mark -/

/-- C1, evaluated on the code: when the first invocation fails with
`Unavailable` and the context is then found cancelled, `exponentialRetry`
returns `context.Canceled`, and the task goes on to call `os.Remove` and
`unmark`: the file is deleted and the mark cleared although no upload was
acknowledged. -/
theorem upload_cancelled_removes_file :
    exponentialRetry 1000 cancelledEnv.retryEnv 1 =
        some (.returned (some .contextCanceled), [.fnCall 0, .newTicker 1000000000]) ∧
      uploadTask 1000 cancelledEnv examplePath exampleWorld 1 =
        some (⟨[], []⟩,
          [.osOpen examplePath, .fnCall 0, .newTicker 1000000000,
            .osRemove examplePath, .unmark examplePath,
            .fileClose examplePath, .workersDone]) := by
  constructor <;> decide

/-- C2 as stated fails: it is not true that whenever the upload succeeded and
`os.Remove` failed, a task that ends leaves the path not in progress. With
`removeFailsEnv` the task ends with the path still marked. -/
theorem remove_failure_clears_mark_refuted :
    ¬ ∀ (iw : Int) (env : TaskEnv) (path : String) (w : World) (fuel : Nat) (t : List Event)
        (w1 : World) (t1 : List Event),
        env.openErr = none →
        exponentialRetry iw env.retryEnv fuel = some (.returned none, t) →
        env.removeErr ≠ none →
        inProgress w.progressTracker path = true →
        uploadTask iw env path w fuel = some (w1, t1) →
        inProgress w1.progressTracker path = false := by
  intro h
  have h1 := h 1000 removeFailsEnv examplePath exampleWorld 0 [.fnCall 0] exampleWorld
    [.osOpen examplePath, .fnCall 0, .osRemove examplePath,
      .logError "error while deleting file" (.other "remove /data/a.dat: permission denied"),
      .fileClose examplePath, .workersDone]
    rfl (by decide) (by decide) (by decide) (by decide)
  revert h1
  decide

/-- C2, amended: when the upload succeeded (`exponentialRetry` returned `nil`)
and `os.Remove` fails, the task logs the deletion error and does not call
`unmark`: the tracker and the files are unchanged, so a path that was marked is
still in progress afterwards. -/
theorem remove_failure_keeps_mark (iw : Int) (env : TaskEnv) (path : String) (w : World)
    (fuel : Nat) (t : List Event) (err : GoError)
    (hopen : env.openErr = none)
    (hretry : exponentialRetry iw env.retryEnv fuel = some (.returned none, t))
    (hremove : env.removeErr = some err)
    (hmarked : inProgress w.progressTracker path = true) :
    ∃ w1 t1, uploadTask iw env path w fuel = some (w1, t1) ∧
      t1 = .osOpen path :: t ++
        [.osRemove path, .logError "error while deleting file" err] ++ closeEvents env path ∧
      t1.count (.unmark path) = 0 ∧
      w1 = w ∧ inProgress w1.progressTracker path = true := by
  refine ⟨w, _, ?_, rfl, ?_, rfl, hmarked⟩
  · simp [uploadTask, hopen, hretry, removeAndUnmark, hremove]
  · have h1 := count_eq_zero_of_retry_events t (.unmark path)
      (exponentialRetry_events iw env.retryEnv fuel _ t hretry) rfl
    have h2 := closeEvents_count env path (.unmark path) rfl (by simp) (by simp)
    simp [List.count_cons, List.count_append, h1, h2]

/-- C2, amended, at a concrete input. -/
theorem remove_failure_keeps_mark_witness :
    ∃ w1 t1, uploadTask 1000 removeFailsEnv examplePath exampleWorld 0 = some (w1, t1) ∧
      t1 = .osOpen examplePath :: [.fnCall 0] ++
        [.osRemove examplePath,
          .logError "error while deleting file" (.other "remove /data/a.dat: permission denied")] ++
        closeEvents removeFailsEnv examplePath ∧
      t1.count (.unmark examplePath) = 0 ∧
      w1 = exampleWorld ∧ inProgress w1.progressTracker examplePath = true :=
  remove_failure_keeps_mark 1000 removeFailsEnv examplePath exampleWorld 0 [.fnCall 0]
    (.other "remove /data/a.dat: permission denied") rfl (by decide) rfl (by decide)

/-- C3, evaluated on the code: when invocation `0` fails with `Unavailable` and
invocation `1`, a retry, fails with `InvalidArgument`, `exponentialRetry` does
not return that failure: it logs it, waits again and makes invocation `2`, whose
success it returns. -/
theorem retry_ignores_invalid_argument :
    exponentialRetry 1000 permanentOnRetryEnv 2 =
      some (.returned none,
        [.fnCall 0, .newTicker 1000000000,
          .fnCall 1, .logError "error while uploading file" invalidArgument, .tickerStop,
          .newTicker 2000000000,
          .fnCall 2, .tickerStop]) := by
  decide

/-- C4: when the first invocation of the upload operation fails with gRPC code
`InvalidArgument`, `exponentialRetry` returns that same error after exactly one
invocation and without creating a ticker (no wait), whatever the fuel; the task
logs the error and ends without calling `os.Remove` or `unmark`: the file still
exists and the path is still marked in progress. -/
theorem permanent_error_first_attempt (iw : Int) (env : TaskEnv) (path : String) (w : World)
    (fuel : Nat) (err : GoError)
    (hopen : env.openErr = none)
    (hfirst : uploadFile (env.attempt 0) = some err)
    (hcode : statusCode err = .InvalidArgument)
    (hmarked : inProgress w.progressTracker path = true)
    (hfile : path ∈ w.files) :
    exponentialRetry iw env.retryEnv fuel = some (.returned (some err), [.fnCall 0]) ∧
      callCount [Event.fnCall 0] = 1 ∧ waits [Event.fnCall 0] = [] ∧
      ∃ w1 t1, uploadTask iw env path w fuel = some (w1, t1) ∧
        t1 = [.osOpen path, .fnCall 0, .logError "" err] ++ closeEvents env path ∧
        t1.count (.osRemove path) = 0 ∧ t1.count (.unmark path) = 0 ∧
        path ∈ w1.files ∧ inProgress w1.progressTracker path = true := by
  have hretry : exponentialRetry iw env.retryEnv fuel =
      some (.returned (some err), [.fnCall 0]) := by
    have h0 : env.retryEnv.fn 0 = some err := hfirst
    simp [exponentialRetry, h0, hcode]
  have hnot : isCanceled err = false := by
    cases err <;> simp_all [statusCode, isCanceled]
  refine ⟨hretry, rfl, rfl, w, _, ?_, rfl, ?_, ?_, hfile, hmarked⟩
  · simp [uploadTask, hopen, hretry, hnot]
  · have h2 := closeEvents_count env path (.osRemove path) rfl (by simp) (by simp)
    simp [List.count_cons, h2]
  · have h2 := closeEvents_count env path (.unmark path) rfl (by simp) (by simp)
    simp [List.count_cons, h2]

/-- C4 at a concrete input. -/
theorem permanent_error_first_attempt_witness :
    exponentialRetry 1000 permanentEnv.retryEnv 0 =
        some (.returned (some invalidArgument), [.fnCall 0]) ∧
      callCount [Event.fnCall 0] = 1 ∧ waits [Event.fnCall 0] = [] ∧
      ∃ w1 t1, uploadTask 1000 permanentEnv examplePath exampleWorld 0 = some (w1, t1) ∧
        t1 = [.osOpen examplePath, .fnCall 0, .logError "" invalidArgument] ++
          closeEvents permanentEnv examplePath ∧
        t1.count (.osRemove examplePath) = 0 ∧ t1.count (.unmark examplePath) = 0 ∧
        examplePath ∈ w1.files ∧ inProgress w1.progressTracker examplePath = true :=
  permanent_error_first_attempt 1000 permanentEnv examplePath exampleWorld 0 invalidArgument
    rfl rfl rfl (by decide) (by decide)

/-- C5 as stated fails: an upload that succeeds, with cancellation never
observed, does not always end with the file deleted and the mark cleared. In
`removeFailsEnv` the first invocation succeeds (`N = 0`), `os.Remove` fails,
and the task ends with the file in place and the path still marked. -/
theorem transient_success_deletes_refuted :
    ¬ ∀ (iw : Int) (env : TaskEnv) (path : String) (w : World) (N fuel : Nat)
        (w1 : World) (t1 : List Event),
        0 < iw → iw < 2 ^ 31 → env.openErr = none →
        (∀ j, env.ctxErrAtCheck j = none) → (∀ j, env.ctxErrAtSelect j = none) →
        (∀ k, k < N →
          ∃ err, uploadFile (env.attempt k) = some err ∧ statusCode err ≠ .InvalidArgument) →
        uploadFile (env.attempt N) = none → N ≤ fuel →
        uploadTask iw env path w fuel = some (w1, t1) →
        t1.count (.unmark path) = 1 ∧ path ∉ w1.files ∧
          inProgress w1.progressTracker path = false := by
  intro h
  have h1 := h 1000 removeFailsEnv examplePath exampleWorld 0 0 exampleWorld
    [.osOpen examplePath, .fnCall 0, .osRemove examplePath,
      .logError "error while deleting file" (.other "remove /data/a.dat: permission denied"),
      .fileClose examplePath, .workersDone]
    (by decide) (by decide) rfl (fun _ => rfl) (fun _ => rfl)
    (fun k hk => absurd hk (Nat.not_lt_zero k)) (by decide) (by decide) (by decide)
  revert h1
  decide

/-- C5, amended: for a positive 32-bit initial wait, when the upload operation
fails with a retryable error on its first `N` invocations and succeeds on the
next one, cancellation is never observed and `os.Open` and `os.Remove` succeed, then
with at least `N` units of fuel `exponentialRetry` returns `nil` after exactly
`N + 1` invocations, and the task calls `os.Remove` and `unmark` exactly once
each, after every event of the driver (so after the last invocation); the file
is gone and the path is no longer in progress. -/
theorem transient_failures_then_success (iw : Int) (env : TaskEnv) (path : String) (w : World)
    (N fuel : Nat) (hiw1 : 0 < iw) (hiw2 : iw < 2 ^ 31)
    (hopen : env.openErr = none) (hremove : env.removeErr = none)
    (hc : ∀ j, env.ctxErrAtCheck j = none) (hs : ∀ j, env.ctxErrAtSelect j = none)
    (hfail : ∀ k, k < N →
      ∃ err, uploadFile (env.attempt k) = some err ∧ statusCode err ≠ .InvalidArgument)
    (hok : uploadFile (env.attempt N) = none) (hfuel : N ≤ fuel) :
    ∃ t, exponentialRetry iw env.retryEnv fuel = some (.returned none, t) ∧
      callCount t = N + 1 ∧ Event.fnCall N ∈ t ∧
      ∃ w1 t1, uploadTask iw env path w fuel = some (w1, t1) ∧
        t1 = .osOpen path :: t ++ [.osRemove path, .unmark path] ++ closeEvents env path ∧
        t1.count (.osRemove path) = 1 ∧ t1.count (.unmark path) = 1 ∧
        path ∉ w1.files ∧ inProgress w1.progressTracker path = false := by
  obtain ⟨t, ht, hcount, -, hmem⟩ :=
    exponentialRetry_success iw env.retryEnv N fuel hiw1 hiw2 hc hs
      (fun err herr => by
        rcases Nat.eq_zero_or_pos N with h0 | hpos
        · subst h0
          have h1 : env.retryEnv.fn 0 = none := hok
          rw [h1] at herr
          exact Option.noConfusion herr
        · obtain ⟨e, he, hne⟩ := hfail 0 hpos
          have h1 : env.retryEnv.fn 0 = some e := he
          rw [h1] at herr
          cases herr
          exact hne)
      (fun k hk => by
        obtain ⟨e, he, -⟩ := hfail k hk
        have h1 : env.retryEnv.fn k = some e := he
        rw [h1]
        exact Option.some_ne_none e)
      hok hfuel
  have hev := exponentialRetry_events iw env.retryEnv fuel _ t ht
  refine ⟨t, ht, hcount, hmem,
    ⟨unmark w.progressTracker path, w.files.filter (fun q => q ≠ path)⟩, _, ?_, rfl,
    ?_, ?_, ?_, inProgress_unmark _ _⟩
  · simp [uploadTask, hopen, ht, removeAndUnmark, hremove]
  · have h1 := count_eq_zero_of_retry_events t (.osRemove path) hev rfl
    have h2 := closeEvents_count env path (.osRemove path) rfl (by simp) (by simp)
    simp [List.count_cons, List.count_append, h1, h2]
  · have h1 := count_eq_zero_of_retry_events t (.unmark path) hev rfl
    have h2 := closeEvents_count env path (.unmark path) rfl (by simp) (by simp)
    simp [List.count_cons, List.count_append, h1, h2]
  · simp

/-- C5, amended, at a concrete input: two failures, then success. -/
theorem transient_failures_then_success_witness :
    ∃ t, exponentialRetry 1000 twoFailuresEnv.retryEnv 2 = some (.returned none, t) ∧
      callCount t = 2 + 1 ∧ Event.fnCall 2 ∈ t ∧
      ∃ w1 t1, uploadTask 1000 twoFailuresEnv examplePath exampleWorld 2 = some (w1, t1) ∧
        t1 = .osOpen examplePath :: t ++ [.osRemove examplePath, .unmark examplePath] ++
          closeEvents twoFailuresEnv examplePath ∧
        t1.count (.osRemove examplePath) = 1 ∧ t1.count (.unmark examplePath) = 1 ∧
        examplePath ∉ w1.files ∧ inProgress w1.progressTracker examplePath = false :=
  transient_failures_then_success 1000 twoFailuresEnv examplePath exampleWorld 2 2
    (by decide) (by decide) rfl rfl (fun _ => rfl) (fun _ => rfl)
    (fun k hk => ⟨unavailable, by simp [twoFailuresEnv, uploadFile, arbitraryAttempt, hk],
      by decide⟩)
    (by decide) (by decide)

/-! ## The backoff schedule -/

/-- With the default initial wait, the wait after `k` doublings is the capped
power of two. -/
theorem default_wait_iterate (k : Nat) :
    (getNextWait defaultInitialWaitTimeMillis)^[k] (initialWait defaultInitialWaitTimeMillis) =
      min (1000000000 * 2 ^ k) maxRetryInterval := by
  induction k with
  | zero => decide
  | succ k ih =>
    rw [Function.iterate_succ_apply', ih]
    have hp : (0 : Int) < 2 ^ k := by positivity
    have hpow : (1000000000 : Int) * 2 ^ (k + 1) = 1000000000 * 2 ^ k * 2 := by ring
    rw [hpow]
    generalize (1000000000 : Int) * 2 ^ k = a at *
    have ha : 0 < min a maxRetryInterval ∧ min a maxRetryInterval < 2 ^ 62 := by
      simp only [maxRetryInterval, min_def]
      split_ifs <;> omega
    rw [getNextWait_eq_min _ _ ha.1 ha.2]
    simp only [maxRetryInterval, min_def]
    split_ifs <;> omega

/-- C6: with the default initial wait (1000 ms), factor 2 and cap one hour, in
a run where cancellation is never observed, the first `N` invocations fail (the
first one retryably) and the next succeeds, `exponentialRetry` creates exactly
`N` tickers, and the period of the `n`-th, the wait before the `n`-th retry, is
`min (1000 ms * 2 ^ (n - 1)) 3600 s`: the first six are 1, 2, 4, 8, 16 and 32
seconds, and every wait from the 13th on, the 20th among them, is 3600 s. -/
theorem default_backoff_schedule (env : RetryEnv) (N fuel : Nat)
    (hc : ∀ j, env.ctxErrAtCheck j = none) (hs : ∀ j, env.ctxErrAtSelect j = none)
    (hfirst : ∀ err, env.fn 0 = some err → statusCode err ≠ .InvalidArgument)
    (hfail : ∀ k, k < N → env.fn k ≠ none) (hok : env.fn N = none) (hfuel : N ≤ fuel) :
    ∃ t, exponentialRetry defaultInitialWaitTimeMillis env fuel = some (.returned none, t) ∧
      (waits t).length = N ∧
      (∀ n, 1 ≤ n → n ≤ N →
        (waits t)[n - 1]? = some (min (1000 * millisecond * 2 ^ (n - 1)) (3600 * 1000 * millisecond))) ∧
      (6 ≤ N → (waits t).take 6 =
        [1000000000, 2000000000, 4000000000, 8000000000, 16000000000, 32000000000]) ∧
      (∀ n, 13 ≤ n → n ≤ N → (waits t)[n - 1]? = some 3600000000000) ∧
      (20 ≤ N → (waits t)[19]? = some 3600000000000) := by
  obtain ⟨t, ht, -, hwaits, -⟩ :=
    exponentialRetry_success defaultInitialWaitTimeMillis env N fuel (by decide) (by decide)
      hc hs hfirst hfail hok hfuel
  have hform : waits t = (List.range N).map (fun j => min (1000000000 * 2 ^ j) maxRetryInterval) := by
    rw [hwaits]
    exact List.map_congr_left (fun j _ => default_wait_iterate j)
  have hget : ∀ n, 1 ≤ n → n ≤ N →
      (waits t)[n - 1]? = some (min (1000000000 * 2 ^ (n - 1)) maxRetryInterval) := by
    intro n h1 h2
    rw [hform, List.getElem?_map, List.getElem?_range (by omega)]
    rfl
  have hcap : ∀ n, 13 ≤ n → n ≤ N → (waits t)[n - 1]? = some 3600000000000 := by
    intro n h1 h2
    rw [hget n (by omega) h2]
    obtain ⟨j, rfl⟩ : ∃ j, n = j + 13 := ⟨n - 13, by omega⟩
    have hp : (0 : Int) < 2 ^ j := by positivity
    have hpow : (1000000000 : Int) * 2 ^ (j + 13 - 1) = 4096000000000 * 2 ^ j := by
      rw [show j + 13 - 1 = j + 12 by omega, pow_add]
      ring
    rw [hpow]
    have hle : (4096000000000 : Int) ≤ 4096000000000 * 2 ^ j := by nlinarith
    simp only [maxRetryInterval, min_def]
    rw [if_neg (by omega)]
  refine ⟨t, ht, by simp [hform], ?_, ?_, hcap, fun h => hcap 20 (by omega) h⟩
  · intro n h1 h2
    rw [hget n h1 h2]
    rfl
  · intro h6
    rw [hform, ← List.map_take, List.take_range, min_eq_left h6]
    decide

/-- C6 at a concrete input: twenty failures, then success. -/
theorem default_backoff_schedule_witness :
    ∃ t, exponentialRetry defaultInitialWaitTimeMillis (failingEnv 20) 20 =
        some (.returned none, t) ∧
      (waits t).length = 20 ∧
      (waits t).take 6 =
        [1000000000, 2000000000, 4000000000, 8000000000, 16000000000, 32000000000] ∧
      (waits t)[12]? = some 3600000000000 ∧
      (waits t)[19]? = some 3600000000000 := by
  obtain ⟨t, h1, h2, -, h4, h5, h6⟩ :=
    default_backoff_schedule (failingEnv 20) 20 20 (fun _ => rfl) (fun _ => rfl)
      (fun err herr => by
        have h : some unavailable = some err := herr
        cases h
        decide)
      (fun k hk => by simp [failingEnv, hk]) (by decide) (by decide)
  exact ⟨t, h1, h2, h4 (by decide), h5 13 (by decide) (by decide), h6 (by decide)⟩

/-- C7 as stated fails: `getNextWait` is not the capped doubling on every
positive 64-bit wait. At `2 ^ 62` nanoseconds the product overflows. -/
theorem getNextWait_min_refuted :
    ¬ ∀ (iw w : Int), 0 < w → w < 2 ^ 63 →
        getNextWait iw w = min (w * retryExponentialFactor) maxRetryInterval := by
  intro h
  have h1 := h 1000 (2 ^ 62) (by decide) (by decide)
  revert h1
  decide

/-- C7, amended: `getNextWait 0` is the configured initial wait (a 32-bit count
of milliseconds, in nanoseconds); for a positive wait `w` below `2 ^ 62`
nanoseconds, where `w * 2` fits in 64 bits, `getNextWait w` is
`min (w * factor) cap`; for `2 ^ 62 ≤ w < 2 ^ 63` the product wraps around and
`getNextWait w` is the negative number `w * 2 - 2 ^ 64`. -/
theorem getNextWait_spec (iw w : Int) (hiw1 : -2 ^ 31 ≤ iw) (hiw2 : iw < 2 ^ 31)
    (hw1 : 0 < w) (hw2 : w < 2 ^ 63) :
    getNextWait iw 0 = millisecond * iw ∧
      getNextWait iw w =
        if w < 2 ^ 62 then min (w * retryExponentialFactor) maxRetryInterval
        else w * retryExponentialFactor - 2 ^ 64 := by
  refine ⟨?_, ?_⟩
  · have h := initialWait_eq iw hiw1 hiw2
    simp only [getNextWait, if_true, millisecond]
    exact h
  · split_ifs with h
    · exact getNextWait_eq_min iw w hw1 h
    · have hw : wrapInt64 (w * 2) = w * 2 - 2 ^ 64 := by
        unfold wrapInt64
        omega
      unfold getNextWait
      rw [if_neg (by omega)]
      simp only [retryExponentialFactor, hw, maxRetryInterval]
      rw [if_neg (by omega)]

/-- C7, amended, at a concrete input: the wait after one second. -/
theorem getNextWait_spec_witness :
    getNextWait 1000 0 = millisecond * 1000 ∧
      getNextWait 1000 1000000000 =
        if (1000000000 : Int) < 2 ^ 62 then
          min (1000000000 * retryExponentialFactor) maxRetryInterval
        else 1000000000 * retryExponentialFactor - 2 ^ 64 :=
  getNextWait_spec 1000 1000000000 (by decide) (by decide) (by decide) (by decide)

/-- C8, evaluated on the code: with `initialWaitTimeMillis` set to 3600001 and
a first invocation that fails with `Unavailable`, the ticker `exponentialRetry`
creates for the first wait has period 3600.001 s, above `maxRetryInterval`. -/
theorem first_wait_exceeds_cap :
    exponentialRetry 3600001 (failingEnv 1) 1 =
        some (.returned none,
          [.fnCall 0, .newTicker 3600001000000, .fnCall 1, .tickerStop]) ∧
      waits [.fnCall 0, .newTicker 3600001000000, .fnCall 1, .tickerStop] = [3600001000000] ∧
      maxRetryInterval < 3600001000000 := by
  decide

/-! ## `Sync` -/

theorem sync_tracker_mono (paths : List String) :
    ∀ (pt : ProgressTracker) (q : String), q ∈ pt → q ∈ (Sync pt paths).1 := by
  induction paths with
  | nil => intro pt q h; exact h
  | cons a rest ih =>
    intro pt q h
    simp only [Sync]
    apply ih
    unfold upload inProgress mark
    by_cases ha : a ∈ pt
    · simpa [ha] using h
    · simpa [ha] using Or.inr h

theorem sync_marks (paths : List String) :
    ∀ (pt : ProgressTracker) (p : String), p ∈ paths → p ∈ (Sync pt paths).1 := by
  induction paths with
  | nil => intro pt p h; simp at h
  | cons a rest ih =>
    intro pt p h
    simp only [Sync]
    rcases List.mem_cons.mp h with rfl | h
    · apply sync_tracker_mono
      unfold upload inProgress mark
      by_cases ha : p ∈ pt
      · simp [ha]
      · simp [ha]
    · exact ih _ p h

theorem sync_count (paths : List String) :
    ∀ (pt : ProgressTracker) (p : String),
      (Sync pt paths).2.count p = if p ∈ paths ∧ p ∉ pt then 1 else 0 := by
  induction paths with
  | nil => intro pt p; simp [Sync]
  | cons a rest ih =>
    intro pt p
    simp only [Sync, List.count_append, ih]
    unfold upload inProgress mark
    by_cases ha : a ∈ pt
    · have hpa : p = a → p ∈ pt := fun h => h ▸ ha
      by_cases hp : p ∈ pt
      · simp [ha, hp]
      · have hne : ¬ p = a := fun h => hp (hpa h)
        simp [ha, hp, hne]
    · by_cases hpa : p = a
      · subst hpa
        simp [ha]
      · have hap : ¬ a = p := fun h => hpa h.symm
        by_cases hp : p ∈ pt
        · simp [ha, hp, hpa, hap, List.count_cons]
        · simp [ha, hp, hpa, hap, List.count_cons]

/-- C9: with no task ending in between, `Sync` starts exactly one task for each
path of the list that was not marked (however often it occurs in the list) and
none for any other path, and afterwards every path of the list is marked; a
second `Sync([p])` right after a first starts no task, so the two calls start
exactly one task for `p` when `p` was not marked before and none when it was. -/
theorem sync_spawns_once (pt : ProgressTracker) (paths : List String) (p : String) :
    (Sync pt paths).2.count p = (if p ∈ paths ∧ inProgress pt p = false then 1 else 0) ∧
      (∀ q ∈ paths, inProgress (Sync pt paths).1 q = true) ∧
      (Sync (Sync pt [p]).1 [p]).2 = [] ∧
      (Sync pt [p]).2 ++ (Sync (Sync pt [p]).1 [p]).2 = (if inProgress pt p then [] else [p]) := by
  have hsecond : (Sync (Sync pt [p]).1 [p]).2 = [] := by
    have h := sync_marks [p] pt p (by simp)
    generalize (Sync pt [p]).1 = pt1 at h
    simp [Sync, upload, inProgress, h]
  refine ⟨?_, ?_, hsecond, ?_⟩
  · rw [sync_count]
    simp [inProgress]
  · intro q hq
    simpa [inProgress] using sync_marks paths pt q hq
  · rw [hsecond]
    by_cases hp : p ∈ pt <;> simp [Sync, upload, inProgress, hp]

/-- C9 at a concrete input: a list with a repeated path and a marked path. -/
theorem sync_spawns_once_witness :
    (Sync ["/data/b.dat"] ["/data/a.dat", "/data/b.dat", "/data/a.dat", "/data/c.dat"]).2
        = ["/data/a.dat", "/data/c.dat"] ∧
      (Sync ["/data/b.dat"]
          ["/data/a.dat", "/data/b.dat", "/data/a.dat", "/data/c.dat"]).2.count "/data/a.dat"
        = (if "/data/a.dat" ∈ ["/data/a.dat", "/data/b.dat", "/data/a.dat", "/data/c.dat"] ∧
            inProgress ["/data/b.dat"] "/data/a.dat" = false then 1 else 0) ∧
      (Sync [] [examplePath]).2 ++ (Sync (Sync [] [examplePath]).1 [examplePath]).2
        = [examplePath] :=
  ⟨by decide,
    (sync_spawns_once ["/data/b.dat"]
      ["/data/a.dat", "/data/b.dat", "/data/a.dat", "/data/c.dat"] "/data/a.dat").1,
    (sync_spawns_once [] [examplePath] examplePath).2.2.2⟩

/-! ## A local read failure -/

/-- A loop iteration that does not observe cancellation starts with the next
invocation of the operation. -/
theorem retryLoop_first_call (iw : Int) (env : RetryEnv) (fuel i : Nat) (w : Int)
    (o : Outcome) (t : List Event)
    (hc : env.ctxErrAtCheck i = none) (hs : env.ctxErrAtSelect i = none)
    (h : retryLoop iw env fuel i w = some (o, t)) :
    ∃ t1, t = .fnCall (i + 1) :: t1 := by
  cases fuel with
  | zero => simp [retryLoop] at h
  | succ f =>
    simp only [retryLoop, hc, hs] at h
    split at h
    · split at h
      · simp only [Option.some.injEq, Prod.mk.injEq] at h
        exact ⟨_, h.2.symm⟩
      · split at h
        · simp at h
        · simp only [Option.some.injEq, Prod.mk.injEq] at h
          exact ⟨_, h.2.symm⟩
    · simp only [Option.some.injEq, Prod.mk.injEq] at h
      exact ⟨_, h.2.symm⟩

/-- C10 as stated fails: a run of the task on a structured capture file whose
first read fails without a gRPC status need not end after one invocation with
the file in place. -/
theorem read_failure_aborts_refuted :
    ¬ ∀ (iw : Int) (env : TaskEnv) (path : String) (w : World) (fuel : Nat) (err : GoError)
        (w1 : World) (t1 : List Event),
        env.openErr = none →
        (env.attempt 0).isDataCaptureFile = true →
        (env.attempt 0).readFileErr = some err →
        (∀ c msg, err ≠ .grpcStatus c msg) →
        path ∈ w.files →
        uploadTask iw env path w fuel = some (w1, t1) →
        callCount t1 = 1 ∧ path ∈ w1.files := by
  intro h
  have h1 := h 1000 readFailsEnv examplePath exampleWorld 1 (.other "unexpected EOF")
    ⟨[], []⟩
    [.osOpen examplePath, .fnCall 0, .newTicker 1000000000, .fnCall 1, .tickerStop,
      .osRemove examplePath, .unmark examplePath, .fileClose examplePath, .workersDone]
    rfl rfl rfl (by intro c msg hc; cases hc) (by decide) (by decide)
  revert h1
  decide

/-- C10, amended: for a structured capture file whose read fails on the first
invocation with an error that carries no gRPC status, and a positive 32-bit
initial wait, `uploadFile` returns that error, its code is `Unknown`, and the
driver treats it as retryable: when cancellation is not observed in the first
loop iteration, the events of every run that ends, its log lines set aside,
start with `os.Open`, the first invocation, a ticker of the initial wait and a
second invocation, so no `os.Remove` comes before that second invocation; and
when that second invocation succeeds the driver returns `nil` after exactly
these two invocations. Log lines are left out of the statement. -/
theorem read_failure_is_retried (iw : Int) (env : TaskEnv) (path : String) (w : World)
    (fuel : Nat) (err : GoError) (hiw1 : 0 < iw) (hiw2 : iw < 2 ^ 31)
    (hopen : env.openErr = none)
    (hdc : (env.attempt 0).isDataCaptureFile = true)
    (hread : (env.attempt 0).readFileErr = some err)
    (hns : ∀ c msg, err ≠ .grpcStatus c msg)
    (hc : env.ctxErrAtCheck 0 = none) (hs : env.ctxErrAtSelect 0 = none) :
    uploadFile (env.attempt 0) = some err ∧ statusCode err = .Unknown ∧
      (∀ w1 t1, uploadTask iw env path w fuel = some (w1, t1) →
        ∃ t2, withoutLogs t1 =
          .osOpen path :: .fnCall 0 :: .newTicker (initialWait iw) :: .fnCall 1 :: t2) ∧
      (uploadFile (env.attempt 1) = none → 1 ≤ fuel →
        ∃ t, exponentialRetry iw env.retryEnv fuel = some (.returned none, t) ∧
          callCount t = 2 ∧
          withoutLogs t = [.fnCall 0, .newTicker (initialWait iw), .fnCall 1, .tickerStop]) := by
  have hup : uploadFile (env.attempt 0) = some err := by
    simp [uploadFile, hdc, hread]
  have hcode : statusCode err = .Unknown := by
    cases err with
    | grpcStatus c msg => exact absurd rfl (hns c msg)
    | contextCanceled => rfl
    | contextDeadlineExceeded => rfl
    | other msg => rfl
  have hfn0 : env.retryEnv.fn 0 = some err := hup
  have hw : initialWait iw = 1000000 * iw := initialWait_eq iw (by omega) hiw2
  have hpos : ¬ initialWait iw ≤ 0 := by omega
  have hdrv : exponentialRetry iw env.retryEnv fuel =
      match retryLoop iw env.retryEnv fuel 0 (initialWait iw) with
      | none => none
      | some (o, t) => some (o, .fnCall 0 :: .newTicker (initialWait iw) :: t) := by
    simp [exponentialRetry, hfn0, hcode, hpos]
  have hstart : ∀ (t1 t2 : List Event),
      t1 = .osOpen path :: .fnCall 0 :: .newTicker (initialWait iw) :: .fnCall 1 :: t2 →
      ∃ t3, withoutLogs t1 =
        .osOpen path :: .fnCall 0 :: .newTicker (initialWait iw) :: .fnCall 1 :: t3 := by
    intro t1 t2 h
    subst h
    exact ⟨withoutLogs t2, by simp [withoutLogs, List.filter_cons]⟩
  refine ⟨hup, hcode, ?_, ?_⟩
  · intro w1 t1 htask
    suffices hex : ∃ t2,
        t1 = .osOpen path :: .fnCall 0 :: .newTicker (initialWait iw) :: .fnCall 1 :: t2 by
      obtain ⟨t2, ht2⟩ := hex
      exact hstart t1 t2 ht2
    simp only [uploadTask, hopen, hdrv] at htask
    cases hloop : retryLoop iw env.retryEnv fuel 0 (initialWait iw) with
    | none => simp [hloop] at htask
    | some r =>
      obtain ⟨o, t⟩ := r
      obtain ⟨t3, rfl⟩ := retryLoop_first_call iw env.retryEnv fuel 0 _ o t hc hs hloop
      simp only [hloop] at htask
      cases o with
      | panicked =>
        simp only [Option.some.injEq, Prod.mk.injEq] at htask
        exact ⟨_, htask.2.symm⟩
      | returned r =>
        cases r with
        | none =>
          simp only [Option.some.injEq, Prod.mk.injEq] at htask
          exact ⟨_, htask.2.symm⟩
        | some e =>
          simp only at htask
          split_ifs at htask
          · simp only [Option.some.injEq, Prod.mk.injEq] at htask
            exact ⟨_, htask.2.symm⟩
          · simp only [Option.some.injEq, Prod.mk.injEq] at htask
            exact ⟨_, htask.2.symm⟩
  · intro hok hfuel
    obtain ⟨f, rfl⟩ : ∃ f, fuel = f + 1 := ⟨fuel - 1, by omega⟩
    have hfn1 : env.retryEnv.fn (0 + 1) = none := hok
    have hc1 : env.retryEnv.ctxErrAtCheck 0 = none := hc
    have hs1 : env.retryEnv.ctxErrAtSelect 0 = none := hs
    refine ⟨[.fnCall 0, .newTicker (initialWait iw), .fnCall 1, .tickerStop], ?_, rfl, rfl⟩
    rw [hdrv]
    simp [retryLoop, hc1, hs1, hfn1]

/-- C10, amended, at a concrete input. -/
theorem read_failure_is_retried_witness :
    uploadFile (readFailsEnv.attempt 0) = some (.other "unexpected EOF") ∧
      (∃ t, exponentialRetry 1000 readFailsEnv.retryEnv 1 = some (.returned none, t) ∧
        callCount t = 2 ∧
        withoutLogs t = [.fnCall 0, .newTicker (initialWait 1000), .fnCall 1, .tickerStop]) ∧
      ∃ t2, withoutLogs
          [Event.osOpen examplePath, .fnCall 0, .newTicker 1000000000, .fnCall 1, .tickerStop,
            .osRemove examplePath, .unmark examplePath, .fileClose examplePath, .workersDone] =
        .osOpen examplePath :: .fnCall 0 :: .newTicker (initialWait 1000) :: .fnCall 1 :: t2 := by
  obtain ⟨h1, -, h3, h4⟩ :=
    read_failure_is_retried 1000 readFailsEnv examplePath exampleWorld 1 (.other "unexpected EOF")
      (by decide) (by decide) rfl rfl rfl (by intro c msg hc; cases hc) rfl rfl
  exact ⟨h1, h4 (by decide) (by decide), h3 ⟨[], []⟩ _ (by decide)⟩

/-! ## Cancellation -/

/-- The retry loop when the next `m` iterations do not see the context
cancelled and their invocations fail, and iteration `i + m` observes the
cancellation, at its top check or in a `select` that takes the `Done` case:
with more than `m` units of fuel the loop returns the error of the context
after exactly `m` invocations, the last of them invocation `i + m`. -/
theorem retryLoop_cancel (iw : Int) (env : RetryEnv) (e : GoError) :
    ∀ (m i : Nat) (w : Int) (fuel : Nat), 0 < w → w < 2 ^ 62 →
      (∀ j, j < m → env.ctxErrAtCheck (i + j) = none ∧ env.ctxErrAtSelect (i + j) = none) →
      (∀ j, j < m → env.fn (i + 1 + j) ≠ none) →
      (env.ctxErrAtCheck (i + m) = some e ∨
        (env.ctxErrAtCheck (i + m) = none ∧ env.ctxErrAtSelect (i + m) = some e ∧
          env.tickWins (i + m) = false)) →
      m < fuel →
      ∃ t, retryLoop iw env fuel i w = some (.returned (some e), t) ∧
        callCount t = m ∧ ∀ k, Event.fnCall k ∈ t → k ≤ i + m := by
  intro m
  induction m with
  | zero =>
    intro i w fuel _ _ _ _ hcancel hfuel
    obtain ⟨f, rfl⟩ : ∃ f, fuel = f + 1 := ⟨fuel - 1, by omega⟩
    simp only [Nat.add_zero] at hcancel
    rcases hcancel with hc | ⟨hc, hs, ht⟩
    · refine ⟨if isCanceled e then [] else [.logError "context closed unexpectedly" e],
        by simp [retryLoop, hc], ?_, ?_⟩
      · split_ifs <;> rfl
      · intro k hk
        split_ifs at hk <;> simp at hk
    · refine ⟨[.tickerStop], by simp [retryLoop, hc, hs, ht], rfl, ?_⟩
      intro k hk
      simp at hk
  | succ m ih =>
    intro i w fuel hw1 hw2 hquiet hfail hcancel hfuel
    obtain ⟨f, rfl⟩ : ∃ f, fuel = f + 1 := ⟨fuel - 1, by omega⟩
    obtain ⟨err, herr⟩ : ∃ err, env.fn (i + 1) = some err := by
      have := hfail 0 (by omega)
      simp only [Nat.add_zero] at this
      exact Option.ne_none_iff_exists'.mp this
    have hq0 := hquiet 0 (by omega)
    simp only [Nat.add_zero] at hq0
    have hnext := getNextWait_pos iw w hw1 hw2
    have hlt : getNextWait iw w < 2 ^ 62 := by
      have := hnext.2
      simp only [maxRetryInterval] at this
      omega
    obtain ⟨t, ht, hcount, hmem⟩ :=
      ih (i + 1) (getNextWait iw w) f hnext.1 hlt
        (fun j hj => by
          have := hquiet (j + 1) (by omega)
          rwa [show i + (j + 1) = i + 1 + j by omega] at this)
        (fun j hj => by
          have := hfail (j + 1) (by omega)
          rwa [show i + 1 + (j + 1) = i + 1 + 1 + j by omega] at this)
        (by rwa [show i + (m + 1) = i + 1 + m by omega] at hcancel)
        (by omega)
    refine ⟨[.fnCall (i + 1), .logError "error while uploading file" err, .tickerStop] ++
      .newTicker (getNextWait iw w) :: t, ?_, ?_, ?_⟩
    · simp [retryLoop, hq0.1, hq0.2, herr, not_le.mpr hnext.1, ht]
    · simp only [callCount] at hcount ⊢
      simp [hcount]
    · intro k hk
      simp only [List.cons_append, List.nil_append, List.mem_cons] at hk
      rcases hk with hk | hk | hk | hk | hk
      · cases hk; omega
      · cases hk
      · cases hk
      · cases hk
      · have := hmem k hk
        omega

/-- C11 as stated fails: a cancellation requested before a retry attempt
begins does not always keep the attempt from starting. In `bothReadyEnv` the
context is cancelled while the ticker fires, `select` takes the ticker case and
the operation is invoked again. -/
theorem cancel_before_attempt_refuted :
    ¬ ∀ (iw : Int) (env : RetryEnv) (fuel k : Nat) (o : Outcome) (t : List Event),
        (env.ctxErrAtCheck k ≠ none ∨ env.ctxErrAtSelect k ≠ none) →
        exponentialRetry iw env fuel = some (o, t) →
        Event.fnCall (k + 1) ∉ t := by
  intro h
  have h1 := h 1000 bothReadyEnv 1 0 (.returned none)
    [.fnCall 0, .newTicker 1000000000, .fnCall 1, .tickerStop]
    (Or.inr (by decide)) (by decide)
  revert h1
  decide

/-- C11, amended: `exponentialRetry` checks the cancellation signal at the top
of every loop iteration, that is after a failed attempt and before the wait,
and again in the `select` that waits for the ticker. For a positive 32-bit
initial wait, when invocations `0` to `N` fail (the first one retryably), no
cancellation is seen in iterations before `N`, and iteration `N` observes it,
at its top check (also right after the first attempt, `N = 0`) or by a `select`
that takes the `Done` case, then with more than `N` units of fuel the driver
returns the error of the context after exactly `N + 1` invocations: invocation
`N + 1` is not started. -/
theorem cancellation_observed_stops_retry (iw : Int) (env : RetryEnv) (N fuel : Nat)
    (e : GoError) (hiw1 : 0 < iw) (hiw2 : iw < 2 ^ 31)
    (hquiet : ∀ j, j < N → env.ctxErrAtCheck j = none ∧ env.ctxErrAtSelect j = none)
    (hfirst : ∀ err, env.fn 0 = some err → statusCode err ≠ .InvalidArgument)
    (hfail : ∀ k, k ≤ N → env.fn k ≠ none)
    (hcancel : env.ctxErrAtCheck N = some e ∨
      (env.ctxErrAtCheck N = none ∧ env.ctxErrAtSelect N = some e ∧ env.tickWins N = false))
    (hfuel : N < fuel) :
    ∃ t, exponentialRetry iw env fuel = some (.returned (some e), t) ∧
      callCount t = N + 1 ∧ Event.fnCall (N + 1) ∉ t := by
  obtain ⟨err, herr⟩ : ∃ err, env.fn 0 = some err :=
    Option.ne_none_iff_exists'.mp (hfail 0 (by omega))
  have hw : initialWait iw = 1000000 * iw := initialWait_eq iw (by omega) hiw2
  have hpos : 0 < initialWait iw := by omega
  have hlt : initialWait iw < 2 ^ 62 := by omega
  obtain ⟨t, ht, hcount, hmem⟩ :=
    retryLoop_cancel iw env e N 0 (initialWait iw) fuel hpos hlt
      (fun j hj => by simpa using hquiet j hj)
      (fun j hj => by
        have := hfail (j + 1) (by omega)
        rwa [show j + 1 = 0 + 1 + j by omega] at this)
      (by simpa using hcancel) hfuel
  refine ⟨.fnCall 0 :: .newTicker (initialWait iw) :: t, ?_, ?_, ?_⟩
  · simp [exponentialRetry, herr, hfirst err herr, not_le.mpr hpos, ht]
  · simp only [callCount] at hcount ⊢
    simp [hcount]
  · intro hk
    simp only [List.mem_cons] at hk
    rcases hk with hk | hk | hk
    · cases hk
    · cases hk
    · have := hmem (N + 1) hk
      omega

/-- C11, amended, at a concrete input: the context is found cancelled at the
top of the iteration that follows the first retry. -/
theorem cancellation_observed_stops_retry_witness :
    ∃ t, exponentialRetry 1000 cancelAfterRetryEnv 2 =
        some (.returned (some .contextCanceled), t) ∧
      callCount t = 1 + 1 ∧ Event.fnCall (1 + 1) ∉ t :=
  cancellation_observed_stops_retry 1000 cancelAfterRetryEnv 1 2 .contextCanceled
    (by decide) (by decide)
    (fun j hj => by
      obtain rfl : j = 0 := by omega
      exact ⟨rfl, rfl⟩)
    (fun err herr => by
      have h : some unavailable = some err := herr
      cases h
      decide)
    (fun k _ => by simp [cancelAfterRetryEnv]) (Or.inl rfl) (by decide)

/-- C13, evaluated on the code: when the first invocation fails with
`Unavailable` and the context is cancelled during the wait, the `select` takes
the `cancelCtx.Done()` case, the ticker is stopped and `exponentialRetry`
returns `cancelCtx.Err()`, which is `context.Canceled` and not `nil`. -/
theorem done_case_returns_context_error :
    exponentialRetry 1000 cancelDuringWaitEnv 1 =
        some (.returned (some .contextCanceled),
          [.fnCall 0, .newTicker 1000000000, .tickerStop]) ∧
      Outcome.returned (some .contextCanceled) ≠ Outcome.returned none := by
  constructor <;> decide

/-! ## Tasks that end without success -/

/-- A marked path gets no task in any later sequence of `Sync` calls. -/
theorem syncAll_marked (calls : List (List String)) :
    ∀ (pt : ProgressTracker) (p : String), p ∈ pt →
      (syncAll pt calls).2.count p = 0 ∧ p ∈ (syncAll pt calls).1 := by
  induction calls with
  | nil => intro pt p h; exact ⟨rfl, h⟩
  | cons paths rest ih =>
    intro pt p h
    have h1 := sync_count paths pt p
    have h2 := sync_tracker_mono paths pt p h
    obtain ⟨h3, h4⟩ := ih (Sync pt paths).1 p h2
    simp only [syncAll, List.count_append]
    refine ⟨?_, h4⟩
    rw [h1, h3]
    simp [h]

/-- C14: a task that ends by a failure of `os.Open`, or by a first upload
attempt failing with gRPC code `InvalidArgument`, ends (whatever the fuel)
without calling `os.Remove` or `unmark`: the path is still marked, the file is
still there, after an open failure the upload operation was never invoked, and
no later sequence of `Sync` calls on that tracker starts a task for the path. -/
theorem failed_task_keeps_mark (iw : Int) (env : TaskEnv) (path : String) (w : World)
    (fuel : Nat)
    (hmarked : inProgress w.progressTracker path = true) (hfile : path ∈ w.files)
    (hend : env.openErr ≠ none ∨
      ∃ err, uploadFile (env.attempt 0) = some err ∧ statusCode err = .InvalidArgument) :
    ∃ w1 t1, uploadTask iw env path w fuel = some (w1, t1) ∧
      inProgress w1.progressTracker path = true ∧ path ∈ w1.files ∧
      t1.count (.osRemove path) = 0 ∧ t1.count (.unmark path) = 0 ∧
      (env.openErr ≠ none → callCount t1 = 0) ∧
      ∀ (calls : List (List String)) (paths : List String),
        (syncAll w1.progressTracker calls).2.count path = 0 ∧
        (Sync (syncAll w1.progressTracker calls).1 paths).2.count path = 0 := by
  have hlater : ∀ (calls : List (List String)) (paths : List String),
      (syncAll w.progressTracker calls).2.count path = 0 ∧
      (Sync (syncAll w.progressTracker calls).1 paths).2.count path = 0 := by
    intro calls paths
    have hp : path ∈ w.progressTracker := by simpa [inProgress] using hmarked
    obtain ⟨h1, h2⟩ := syncAll_marked calls w.progressTracker path hp
    refine ⟨h1, ?_⟩
    rw [sync_count]
    simp [h2]
  cases hopen : env.openErr with
  | some e =>
    refine ⟨w, [.osOpen path, .logError "error opening file" e, .workersDone], ?_,
      hmarked, hfile, ?_, ?_, fun _ => rfl, hlater⟩
    · simp [uploadTask, hopen]
    · simp [List.count_cons]
    · simp [List.count_cons]
  | none =>
    rcases hend with h | ⟨err, hfirst, hcode⟩
    · exact absurd hopen h
    · have hretry : exponentialRetry iw env.retryEnv fuel =
          some (.returned (some err), [.fnCall 0]) := by
        have h0 : env.retryEnv.fn 0 = some err := hfirst
        simp [exponentialRetry, h0, hcode]
      have hnot : isCanceled err = false := by
        cases err <;> simp_all [statusCode, isCanceled]
      refine ⟨w, [.osOpen path, .fnCall 0, .logError "" err] ++ closeEvents env path, ?_,
        hmarked, hfile, ?_, ?_, fun h => absurd rfl h, hlater⟩
      · simp [uploadTask, hopen, hretry, hnot]
      · have h2 := closeEvents_count env path (.osRemove path) rfl (by simp) (by simp)
        simp [List.count_cons, h2]
      · have h2 := closeEvents_count env path (.unmark path) rfl (by simp) (by simp)
        simp [List.count_cons, h2]

/-- C14 at a concrete input: the file cannot be opened, and two later `Sync`
calls name the path. -/
theorem failed_task_keeps_mark_witness :
    ∃ w1 t1, uploadTask 1000 openFailsEnv examplePath exampleWorld 0 = some (w1, t1) ∧
      inProgress w1.progressTracker examplePath = true ∧ examplePath ∈ w1.files ∧
      t1.count (.osRemove examplePath) = 0 ∧ t1.count (.unmark examplePath) = 0 ∧
      callCount t1 = 0 ∧
      (syncAll w1.progressTracker [[examplePath], ["/data/b.dat", examplePath]]).2.count
        examplePath = 0 := by
  obtain ⟨w1, t1, h1, h2, h3, h4, h5, h6, h7⟩ :=
    failed_task_keeps_mark 1000 openFailsEnv examplePath exampleWorld 0
      (by decide) (by decide) (Or.inl (by decide))
  exact ⟨w1, t1, h1, h2, h3, h4, h5, h6 (by decide), (h7 _ []).1⟩

/-! ## Ticker periods -/

/-- From a positive wait below `2 ^ 62` the retry loop never panics, and every
ticker it creates has a positive period of at most `maxRetryInterval`. -/
theorem retryLoop_no_panic (iw : Int) (env : RetryEnv) :
    ∀ (fuel i : Nat) (w : Int) (o : Outcome) (t : List Event), 0 < w → w < 2 ^ 62 →
      retryLoop iw env fuel i w = some (o, t) →
      o ≠ .panicked ∧ ∀ d, Event.newTicker d ∈ t → 0 < d ∧ d ≤ maxRetryInterval := by
  intro fuel
  induction fuel with
  | zero => intro i w o t _ _ h; simp [retryLoop] at h
  | succ f ih =>
    intro i w o t hw1 hw2 h
    have hnext := getNextWait_pos iw w hw1 hw2
    have hlt : getNextWait iw w < 2 ^ 62 := by
      have := hnext.2
      simp only [maxRetryInterval] at this
      omega
    unfold retryLoop at h
    split at h
    · simp only [Option.some.injEq, Prod.mk.injEq] at h
      obtain ⟨rfl, rfl⟩ := h
      refine ⟨by simp, ?_⟩
      intro d hd
      split_ifs at hd <;> simp at hd
    · split at h
      · simp only [Option.some.injEq, Prod.mk.injEq] at h
        obtain ⟨rfl, rfl⟩ := h
        refine ⟨by simp, ?_⟩
        intro d hd
        simp at hd
      · split at h
        · simp only at h
          rw [if_neg (not_le.mpr hnext.1)] at h
          split at h
          · simp at h
          · rename_i o1 t1 hrec
            simp only [Option.some.injEq, Prod.mk.injEq] at h
            obtain ⟨rfl, rfl⟩ := h
            obtain ⟨h1, h2⟩ := ih _ _ _ _ hnext.1 hlt hrec
            refine ⟨h1, ?_⟩
            intro d hd
            simp only [List.cons_append, List.nil_append, List.mem_cons] at hd
            rcases hd with hd | hd | hd | hd | hd
            · cases hd
            · cases hd
            · cases hd
            · cases hd
              exact hnext
            · exact h2 d hd
        · simp only [Option.some.injEq, Prod.mk.injEq] at h
          obtain ⟨rfl, rfl⟩ := h
          refine ⟨by simp, ?_⟩
          intro d hd
          simp at hd

/-- Every wait reachable by `getNextWait` from a positive 32-bit initial wait is
positive and below `2 ^ 62`. -/
theorem reachable_wait_bounds (iw : Int) (h1 : 1 ≤ iw) (h2 : iw < 2 ^ 31) (k : Nat) :
    0 < (getNextWait iw)^[k] (initialWait iw) ∧
      (getNextWait iw)^[k] (initialWait iw) < 2 ^ 62 := by
  have hw : initialWait iw = 1000000 * iw := initialWait_eq iw (by omega) h2
  induction k with
  | zero =>
    simp only [Function.iterate_zero, id_eq]
    omega
  | succ k ih =>
    rw [Function.iterate_succ_apply']
    have h := getNextWait_pos iw _ ih.1 ih.2
    have := h.2
    simp only [maxRetryInterval] at this
    exact ⟨h.1, by omega⟩

/-- C15: for every initial wait `initialWaitTimeMillis` with
`1 ≤ initialWaitTimeMillis < 2 ^ 31`, a run of `exponentialRetry` that ends
does not end in a panic, every period it passes to `time.NewTicker` is positive
and its doubling fits in 64 bits; the first product
`time.Millisecond * initialWaitTimeMillis` does not overflow, and the same
holds for every wait reachable from it by `getNextWait`. -/
theorem ticker_periods_positive (iw : Int) (env : RetryEnv) (fuel : Nat) (o : Outcome)
    (t : List Event) (h1 : 1 ≤ iw) (h2 : iw < 2 ^ 31)
    (h : exponentialRetry iw env fuel = some (o, t)) :
    o ≠ .panicked ∧
      (∀ d, Event.newTicker d ∈ t →
        0 < d ∧ wrapInt64 (d * retryExponentialFactor) = d * retryExponentialFactor) ∧
      initialWait iw = millisecond * iw ∧
      ∀ k, 0 < (getNextWait iw)^[k] (initialWait iw) ∧
        wrapInt64 ((getNextWait iw)^[k] (initialWait iw) * retryExponentialFactor) =
          (getNextWait iw)^[k] (initialWait iw) * retryExponentialFactor := by
  have hw : initialWait iw = 1000000 * iw := initialWait_eq iw (by omega) h2
  have hpos : 0 < initialWait iw := by omega
  have hlt : initialWait iw < 2 ^ 62 := by omega
  have hfit : ∀ d : Int, 0 < d → d < 2 ^ 62 →
      wrapInt64 (d * retryExponentialFactor) = d * retryExponentialFactor := by
    intro d hd1 hd2
    simp only [retryExponentialFactor]
    exact wrapInt64_of_range _ (by omega) (by omega)
  refine ⟨?_, ?_, hw, fun k => ?_⟩
  · unfold exponentialRetry at h
    split at h
    · simp only [Option.some.injEq, Prod.mk.injEq] at h
      rw [← h.1]; simp
    · split at h
      · simp only [Option.some.injEq, Prod.mk.injEq] at h
        rw [← h.1]; simp
      · simp only at h
        rw [if_neg (not_le.mpr hpos)] at h
        split at h
        · simp at h
        · rename_i o1 t1 hrec
          simp only [Option.some.injEq, Prod.mk.injEq] at h
          rw [← h.1]
          exact (retryLoop_no_panic iw env fuel 0 _ _ _ hpos hlt hrec).1
  · intro d hd
    unfold exponentialRetry at h
    split at h
    · simp only [Option.some.injEq, Prod.mk.injEq] at h
      rw [← h.2] at hd; simp at hd
    · split at h
      · simp only [Option.some.injEq, Prod.mk.injEq] at h
        rw [← h.2] at hd; simp at hd
      · simp only at h
        rw [if_neg (not_le.mpr hpos)] at h
        split at h
        · simp at h
        · rename_i o1 t1 hrec
          simp only [Option.some.injEq, Prod.mk.injEq] at h
          rw [← h.2] at hd
          simp only [List.mem_cons] at hd
          rcases hd with hd | hd | hd
          · cases hd
          · cases hd
            exact ⟨hpos, hfit _ hpos hlt⟩
          · have hb := (retryLoop_no_panic iw env fuel 0 _ _ _ hpos hlt hrec).2 d hd
            have := hb.2
            simp only [maxRetryInterval] at this
            exact ⟨hb.1, hfit _ hb.1 (by omega)⟩
  · have hb := reachable_wait_bounds iw h1 h2 k
    exact ⟨hb.1, hfit _ hb.1 hb.2⟩

/-- C15 at a concrete input: the largest 32-bit initial wait, two failures and
a success. -/
theorem ticker_periods_positive_witness :
    Outcome.returned none ≠ .panicked ∧
      (∀ d, Event.newTicker d ∈
          [Event.fnCall 0, .newTicker 2147483647000000, .fnCall 1,
            .logError "error while uploading file" unavailable, .tickerStop,
            .newTicker 3600000000000, .fnCall 2, .tickerStop] →
        0 < d ∧ wrapInt64 (d * retryExponentialFactor) = d * retryExponentialFactor) ∧
      initialWait 2147483647 = millisecond * 2147483647 ∧
      ∀ k, 0 < (getNextWait 2147483647)^[k] (initialWait 2147483647) ∧
        wrapInt64 ((getNextWait 2147483647)^[k] (initialWait 2147483647) *
            retryExponentialFactor) =
          (getNextWait 2147483647)^[k] (initialWait 2147483647) * retryExponentialFactor :=
  ticker_periods_positive 2147483647 (failingEnv 2) 2 (.returned none) _
    (by decide) (by decide) (by decide)

/-! ## Concurrent calls of `Sync` -/

theorem stepAlone_finished (n : Nat) (m : Manager) (b : Bool) :
    stepAlone n (m, ⟨[], b⟩) = (m, ⟨[], b⟩) := by
  induction n with
  | zero => rfl
  | succ n ih => simpa [stepAlone, syncStep] using ih

theorem stepAlone_add (a b : Nat) (s : Manager × SyncCall) :
    stepAlone (a + b) s = stepAlone b (stepAlone a s) := by
  induction a generalizing s with
  | zero => simp [stepAlone]
  | succ a ih =>
    rw [show a + 1 + b = (a + b) + 1 by omega]
    simp only [stepAlone]
    exact ih _

/-- A goroutine that runs `Sync(paths)` with no other goroutine moving does what
the function `Sync` computes: the step model refines to the sequential one. -/
theorem stepAlone_eq_Sync (paths : List String) :
    ∀ (m : Manager), stepAlone (2 * paths.length) (m, ⟨paths, false⟩) =
      (⟨(Sync m.progressTracker paths).1, m.spawned ++ (Sync m.progressTracker paths).2⟩,
        ⟨[], false⟩) := by
  induction paths with
  | nil => intro m; simp [stepAlone, Sync]
  | cons p rest ih =>
    intro m
    by_cases hp : p ∈ m.progressTracker
    · rw [show 2 * (p :: rest).length = 1 + (2 * rest.length + 1) by simp; omega,
        stepAlone_add, stepAlone_add]
      have h1 : stepAlone 1 (m, ⟨p :: rest, false⟩) = (m, ⟨rest, false⟩) := by
        simp [stepAlone, syncStep, inProgress, hp]
      rw [h1, ih, stepAlone_finished]
      simp [Sync, upload, inProgress, hp]
    · rw [show 2 * (p :: rest).length = 2 + 2 * rest.length by simp; omega, stepAlone_add]
      have h1 : stepAlone 2 (m, ⟨p :: rest, false⟩) =
          (⟨mark m.progressTracker p, m.spawned ++ [p]⟩, ⟨rest, false⟩) := by
        simp [stepAlone, syncStep, inProgress, hp]
      rw [h1, ih]
      simp [Sync, upload, inProgress, hp]

/-- C12, evaluated on the code: two goroutines call `Sync` with the same
unmarked path. When both make the `inProgress` call before either makes the
`mark` call, both find the path unmarked, both mark it and both start a task:
two tasks for one path. Run one after the other, the same two calls start one
task. -/
theorem concurrent_sync_spawns_twice :
    runSchedule ⟨[], []⟩ [⟨[examplePath], false⟩, ⟨[examplePath], false⟩] [0, 1, 0, 1] =
        (⟨[examplePath], [examplePath, examplePath]⟩, [⟨[], false⟩, ⟨[], false⟩]) ∧
      runSchedule ⟨[], []⟩ [⟨[examplePath], false⟩, ⟨[examplePath], false⟩] [0, 0, 1, 1] =
        (⟨[examplePath], [examplePath]⟩, [⟨[], false⟩, ⟨[], false⟩]) := by
  constructor <;> decide

end Datasync

namespace Referenceframe

/-! ## The message of `NewIncorrectInputLengthError` -/

/-- The format of `NewIncorrectInputLengthError` applied to its two arguments:
text, first argument, text, second argument. -/
theorem errorf_message (first second : Int) :
    errorf "number of inputs does not match frame DoF, expected %d but got %d".data
        [first, second] =
      "number of inputs does not match frame DoF, expected ".data ++
        ((decimal first).data ++ (" but got ".data ++ ((decimal second).data ++ []))) := by
  rfl

/-- C16: for all integers `actual` and `expected`, the message of
`NewIncorrectInputLengthError(actual, expected)` is
"number of inputs does not match frame DoF, expected E but got A" with `E` the
decimal rendering of `expected` and `A` that of `actual`: the arguments are
not swapped. For 3 and 7 it reads "expected 7 but got 3", and a negative number
is rendered with its sign. -/
theorem incorrect_input_length_message (actual expected : Int) :
    NewIncorrectInputLengthError actual expected =
        "number of inputs does not match frame DoF, expected " ++ decimal expected ++
          " but got " ++ decimal actual ∧
      NewIncorrectInputLengthError 3 7 =
        "number of inputs does not match frame DoF, expected 7 but got 3" ∧
      NewIncorrectInputLengthError (-3) 0 =
        "number of inputs does not match frame DoF, expected 0 but got -3" := by
  refine ⟨?_, by decide, by decide⟩
  unfold NewIncorrectInputLengthError
  apply String.ext
  rw [errorf_message]
  simp only [String.data_append, List.append_nil, List.append_assoc]

end Referenceframe

namespace Spatialmath

variable {Vector Pose Box Sphere : Type}

/-! ## Collision and distance of a point -/

theorem Float64.leZero_iff_not_gtZero (x : Float64) (h : x ≠ .nan) :
    x.leZero = true ↔ x.gtZero = false := by
  cases x with
  | nan => exact absurd rfl h
  | negInf => simp [Float64.leZero, Float64.gtZero]
  | finite m e => simp [Float64.leZero, Float64.gtZero]
  | posInf => simp [Float64.leZero, Float64.gtZero]

theorem Float64.gtZero_not_leZero (x : Float64) (h : x.gtZero = true) : x.leZero = false := by
  cases x with
  | nan => simp [Float64.gtZero] at h
  | negInf => simp [Float64.gtZero] at h
  | finite m e =>
    simp only [Float64.gtZero, decide_eq_true_eq] at h
    simp only [Float64.leZero, decide_eq_false_iff_not]
    omega
  | posInf => rfl

theorem Float64.neg_not_gtZero (x : Float64) (h : x.geZero = true) : x.neg.gtZero = false := by
  cases x with
  | nan => simp [Float64.geZero] at h
  | negInf => simp [Float64.geZero] at h
  | finite m e =>
    simp only [Float64.geZero, decide_eq_true_eq] at h
    simp only [Float64.neg, Float64.gtZero, decide_eq_false_iff_not]
    omega
  | posInf => rfl

/-- C17 as stated fails: for a box with penetration depth zero whose closest
point is at a not-a-number distance from the point, `CollidesWith` is false
although `DistanceFrom` is not positive. -/
theorem collision_iff_distance_refuted :
    ¬ ∀ (ops : Ops Unit Unit Unit Unit) (pose : Unit) (g : Geometry Unit Unit Unit),
        (g = .box () ∨ g = .sphere ()) →
        (ops.penetrationDepth () (ops.posePoint pose)).geZero = true →
        ((CollidesWith ops pose g).1 = true ↔ (DistanceFrom ops pose g).1.gtZero = false) := by
  intro h
  have h1 := h (constOps .nan (.finite 0 0)) () (.box ()) (Or.inl rfl) (by decide)
  revert h1
  decide

/-- C17, amended: for a box whose penetration depth is non-negative, and for a
sphere, a positive `DistanceFrom` means that `CollidesWith` is false; when the
distance from which both are computed (for a box the distance from the point to
its closest point of the box, for a sphere `sphereVsPointDistance`) is not
not-a-number, `CollidesWith` is true exactly when `DistanceFrom` is not
positive; and for every geometry `EncompassedBy` returns what `CollidesWith`
returns. -/
theorem collision_iff_distance (ops : Ops Vector Pose Box Sphere) (pose : Pose)
    (g : Geometry Pose Box Sphere)
    (hg : (∃ b, g = .box b) ∨ (∃ s, g = .sphere s))
    (hdepth : ∀ b, g = .box b → (ops.penetrationDepth b (ops.posePoint pose)).geZero = true) :
    ((DistanceFrom ops pose g).1.gtZero = true → (CollidesWith ops pose g).1 = false) ∧
      ((∀ b, g = .box b →
          ops.norm (ops.sub (ops.closestPoint b (ops.posePoint pose)) (ops.posePoint pose))
            ≠ .nan) →
        (∀ s, g = .sphere s → ops.sphereVsPointDistance s (ops.posePoint pose) ≠ .nan) →
        ((CollidesWith ops pose g).1 = true ↔ (DistanceFrom ops pose g).1.gtZero = false)) ∧
      (∀ g1 : Geometry Pose Box Sphere, EncompassedBy ops pose g1 = CollidesWith ops pose g1) := by
  refine ⟨?_, ?_, fun _ => rfl⟩
  · rcases hg with ⟨b, rfl⟩ | ⟨s, rfl⟩
    · have hd := Float64.neg_not_gtZero _ (hdepth b rfl)
      simp only [DistanceFrom, CollidesWith, pointVsBoxDistance, pointVsBoxCollision]
      intro h
      split_ifs at h with hpos
      · exact Float64.gtZero_not_leZero _ hpos
      · rw [hd] at h
        exact Bool.noConfusion h
    · simp only [DistanceFrom, CollidesWith]
      exact Float64.gtZero_not_leZero _
  · intro hbox hsphere
    rcases hg with ⟨b, rfl⟩ | ⟨s, rfl⟩
    · have hd := Float64.neg_not_gtZero _ (hdepth b rfl)
      have hiff := Float64.leZero_iff_not_gtZero _ (hbox b rfl)
      simp only [DistanceFrom, CollidesWith, pointVsBoxDistance, pointVsBoxCollision]
      split_ifs with hpos
      · rw [hiff]
      · rw [hiff]
        simp only [Bool.not_eq_true] at hpos
        simp [hpos, hd]
    · simp only [DistanceFrom, CollidesWith]
      exact Float64.leZero_iff_not_gtZero _ (hsphere s rfl)

/-- C17, amended, at a concrete input: a box at distance `1.5` from the
point. -/
theorem collision_iff_distance_witness :
    ((DistanceFrom (constOps (.finite 3 (-1)) (.finite 0 0)) () (.box ())).1.gtZero = true →
        (CollidesWith (constOps (.finite 3 (-1)) (.finite 0 0)) () (.box ())).1 = false) ∧
      ((CollidesWith (constOps (.finite 3 (-1)) (.finite 0 0)) () (.box ())).1 = true ↔
        (DistanceFrom (constOps (.finite 3 (-1)) (.finite 0 0)) () (.box ())).1.gtZero = false) ∧
      (DistanceFrom (constOps (.finite 3 (-1)) (.finite 0 0)) () (.box ())).1 = .finite 3 (-1) := by
  obtain ⟨h1, h2, -⟩ :=
    collision_iff_distance (constOps (.finite 3 (-1)) (.finite 0 0)) () (.box ())
      (Or.inl ⟨(), rfl⟩) (fun _ _ => rfl)
  exact ⟨h1, h2 (fun _ _ => by simp [constOps]) (fun _ h => by cases h), by decide⟩

end Spatialmath
